import Mathlib

/-!
Verification of the ai-rag-pipeline repository core: a shallow embedding of
the pipeline orchestrator, the three stages (clone / clean / upload), the
MongoDB cache layer and the OpenAI content-splitting helpers, together with
theorems settling the specification claims.

Modelling conventions:
  - JavaScript async functions that can reject are embedded as functions
    returning `Except String`; the message mirrors the thrown error message.
  - Machine time (Date.now, durations) is irrelevant to every claim and is
    dropped; where a timestamp value is stored it is taken as a parameter.
  - Bounded-concurrency batch loops in the source preserve input order and
    perform per-item work that commutes across a window (each item touches
    only its own document/cache row), so they are embedded as ordinary
    left-to-right folds over the document list.
-/

namespace RagPipeline

/-! ## Orchestrator (src/pipeline-orchestrator.js)

`executePipeline` runs the clone, clean and upload stages in order, threading
`currentDocuments` from one stage to the next, recording a per-stage entry in
`executionState.stageResults`, and applying the fail-fast policy when a stage
throws.  The behaviour of each stage `execute` is abstracted as a function
from the current document set to `Except String (OStageResult α)`. -/

/-- What a stage execute resolves with, as seen by the orchestrator:
a success flag and an optional produced document set. -/
structure OStageResult (α : Type) where
  success : Bool
  documents : Option (List α)
deriving DecidableEq

/-- An entry of the orchestrator stageResults map: either the spread of a
resolved stage result, or the failure record written in the catch branch. -/
structure StageRecord (α : Type) where
  success : Bool
  documents : Option (List α) := none
  error : Option String := none
deriving DecidableEq

/-- Options of executePipeline used by the control flow: folder tokens,
the tri-state failFast flag (absent / true / false) and skipStages. -/
structure PipelineOptions where
  folderTokens : List String
  failFast : Option Bool := none
  skipStages : List String := []
deriving DecidableEq

/-- The three stage behaviours.  The clone stage receives the folder tokens;
clean and upload receive the current document set (null before any stage
produced one), mirroring the option switch in executePipeline. -/
structure StageBehaviors (α : Type) where
  clone : List String → Except String (OStageResult α)
  clean : Option (List α) → Except String (OStageResult α)
  upload : Option (List α) → Except String (OStageResult α)

/-- The object executePipeline resolves with (getPipelineResult): the
success field is the literal true, and stages is the stageResults map. -/
structure PipelineResult (α : Type) where
  success : Bool
  stages : List (String × StageRecord α)
deriving DecidableEq

/-- The record written for a stage whose execute resolved:
`{ ...stageResult, stageDuration }`. -/
def recordOfResult {α : Type} (r : OStageResult α) : StageRecord α :=
  { success := r.success, documents := r.documents, error := none }

/-- The record written in the catch branch for a stage whose execute threw:
`{ stage, success: false, error: stageError.message, duration }`. -/
def recordOfFailure {α : Type} (e : String) : StageRecord α :=
  { success := false, documents := none, error := some e }

/-- The per-stage loop of executePipeline: skip stages in skipStages; on a
resolved stage, record its result and update currentDocuments when the stage
produced a documents field; on a thrown stage error, record the failure and
rethrow the wrapped error unless failFast was set to the literal false. -/
def runStages {α : Type} (failFast : Option Bool) (skip : List String) :
    List (String × (Option (List α) → Except String (OStageResult α))) →
    Option (List α) → List (String × StageRecord α) →
    Except String (List (String × StageRecord α))
  | [], _, acc => .ok acc
  | (name, exec) :: rest, cur, acc =>
    if name ∈ skip then
      runStages failFast skip rest cur acc
    else
      match exec cur with
      | .ok r =>
        runStages failFast skip rest
          (if r.documents.isSome then r.documents else cur)
          (acc ++ [(name, recordOfResult r)])
      | .error e =>
        if failFast ≠ some false then
          .error ("Pipeline failed at stage " ++ name ++ ": " ++ e)
        else
          runStages failFast skip rest cur (acc ++ [(name, recordOfFailure e)])

/-- executePipeline: validates folderTokens, runs the clone / clean / upload
sequence, and resolves with getPipelineResult, whose success field is the
literal true. -/
def executePipeline {α : Type} (b : StageBehaviors α) (opts : PipelineOptions) :
    Except String (PipelineResult α) :=
  if opts.folderTokens = [] then
    .error "folderTokens is required and cannot be empty"
  else
    (runStages opts.failFast opts.skipStages
        [("clone", fun _ => b.clone opts.folderTokens),
         ("clean", fun cur => b.clean cur),
         ("upload", fun cur => b.upload cur)]
        none []).map
      (fun recs => { success := true, stages := recs })

/-- The record a stage gets under failFast=false, as a function of the
outcome of its execute call. -/
def recordOfOutcome {α : Type} : Except String (OStageResult α) → StageRecord α
  | .ok r => recordOfResult r
  | .error e => recordOfFailure e

/-! ## Clone stage (src/stages/clone-stage.js)

The clone stage collects documents, classifies each against the cache
(`processDocumentsIncremental` / `isDocumentModified`), fetches content for
the selected documents (`fetchDocumentContents`) and reports statistics
(`getResults`). -/

/-- A JavaScript date-like field value as the clone stage sees it: absent
(undefined / null / empty, i.e. falsy), a value that does not parse as a
date (`new Date` then yields an Invalid Date whose numeric value is NaN),
or a valid timestamp in milliseconds. -/
inductive TimeVal where
  | absent
  | invalid
  | time (t : Int)
deriving DecidableEq

/-- JavaScript `a || b` on two date-like field values: the fallback is used
only when the first operand is falsy (absent). -/
def TimeVal.orVal : TimeVal → TimeVal → TimeVal
  | .absent, b => b
  | a, _ => a

/-- `new Date(v)` as a numeric value: a valid timestamp parses; anything
else yields NaN (`none`).  Note `new Date` never throws. -/
def TimeVal.toDate : TimeVal → Option Int
  | .time t => some t
  | _ => none

/-- JavaScript `>` on two Date numeric values: any comparison involving NaN
is false. -/
def jsDateGt : Option Int → Option Int → Bool
  | some a, some b => decide (a > b)
  | _, _ => false

/-- A document reference as collected from the source client. -/
structure CloneDoc where
  id : String
  type : String := "doc"
  modified_time : TimeVal := .absent
  updatedAt : TimeVal := .absent
deriving DecidableEq

/-- The projection of a stored cache entry that the clone stage staleness
check reads. -/
structure CloneCacheEntry where
  lastModified : TimeVal := .absent
  updatedAt : TimeVal := .absent
deriving DecidableEq

/-- CloneStage.isDocumentModified: compares
`new Date(document.modified_time || document.updatedAt)` against
`new Date(cached.lastModified || cached.updatedAt)` with `>`.  The
surrounding try/catch (which would return true) is dead code: Date
construction and comparison never throw, an unparseable value just becomes
NaN and every NaN comparison is false. -/
def isDocumentModified (document : CloneDoc) (cached : CloneCacheEntry) : Bool :=
  jsDateGt (document.modified_time.orVal document.updatedAt).toDate
    (cached.lastModified.orVal cached.updatedAt).toDate

/-- The clone stage statistics record. -/
structure CloneStats where
  totalDocuments : Nat := 0
  newDocuments : Nat := 0
  updatedDocuments : Nat := 0
  cachedDocuments : Nat := 0
  failedDocuments : Nat := 0
deriving DecidableEq

/-- An entry of stats.processedDocuments. -/
structure ProcessedEntry where
  document : CloneDoc
  success : Bool
  error : Option String := none
deriving DecidableEq

/-- The external collaborators of the clone stage.  getCachedDocument
catches internally and returns null on a store error, so it is total;
content fetching and per-document extraction can fail. -/
structure CloneEnv where
  getCachedDocument : String → Option CloneCacheEntry
  getDocumentContent : String → String → Except String String
  processDocumentSync : CloneDoc → String → Except String CloneDoc

/-- One step of processDocumentsIncremental: the decision table of the
incremental check.  Source shape: `if (!forceFullUpdate && isCached)` then
skip-or-update based on isDocumentModified, else count updated when cached
and new otherwise, keeping the document for processing.  The per-document
catch incrementing failedDocuments is unreachable here because
getCachedDocument and isDocumentModified cannot throw. -/
def classifyDocument (env : CloneEnv) (forceFullUpdate : Bool)
    (st : CloneStats × List CloneDoc) (document : CloneDoc) :
    CloneStats × List CloneDoc :=
  let (stats, toProcess) := st
  match env.getCachedDocument document.id, forceFullUpdate with
  | some cached, false =>
    if isDocumentModified document cached then
      ({ stats with updatedDocuments := stats.updatedDocuments + 1 },
        toProcess ++ [document])
    else
      ({ stats with cachedDocuments := stats.cachedDocuments + 1 }, toProcess)
  | some _, true =>
    ({ stats with updatedDocuments := stats.updatedDocuments + 1 },
      toProcess ++ [document])
  | none, _ =>
    ({ stats with newDocuments := stats.newDocuments + 1 },
      toProcess ++ [document])

/-- CloneStage.processDocumentsIncremental: classify every collected
document (batching only bounds concurrency and preserves order). -/
def processDocumentsIncremental (env : CloneEnv) (documents : List CloneDoc)
    (forceFullUpdate : Bool) (stats : CloneStats) : CloneStats × List CloneDoc :=
  documents.foldl (classifyDocument env forceFullUpdate) (stats, [])

/-- One step of fetchDocumentContents: fetch the raw content, run the
format-specific extractor, and record a processedDocuments entry; each
per-document failure increments failedDocuments. -/
def fetchOneDocument (env : CloneEnv)
    (st : CloneStats × List ProcessedEntry) (document : CloneDoc) :
    CloneStats × List ProcessedEntry :=
  let (stats, entries) := st
  match env.getDocumentContent document.id document.type with
  | .ok content =>
    match env.processDocumentSync document content with
    | .ok processed =>
      (stats, entries ++ [{ document := processed, success := true }])
    | .error msg =>
      ({ stats with failedDocuments := stats.failedDocuments + 1 },
        entries ++ [{ document := document, success := false, error := some msg }])
  | .error msg =>
    ({ stats with failedDocuments := stats.failedDocuments + 1 },
      entries ++ [{ document := document, success := false, error := some msg }])

/-- CloneStage.fetchDocumentContents over the selected documents. -/
def fetchDocumentContents (env : CloneEnv) (documents : List CloneDoc)
    (stats : CloneStats) : CloneStats × List ProcessedEntry :=
  documents.foldl (fetchOneDocument env) (stats, [])

/-- Whether the fetch-and-extract phase fails for a document under a given
environment. -/
def cloneFetchFails (env : CloneEnv) (document : CloneDoc) : Bool :=
  match env.getDocumentContent document.id document.type with
  | .error _ => true
  | .ok content =>
    match env.processDocumentSync document content with
    | .error _ => true
    | .ok _ => false

/-- The clone stage result (CloneStage.getResults). -/
structure CloneResult where
  stage : String
  success : Bool
  stats : CloneStats
  successCount : Nat
  cacheHitRate : ℚ
  documents : List CloneDoc
  errors : List (String × Option String)
deriving DecidableEq

/-- CloneStage.getResults: successful entries become the output document
set, failures become the error list, and cacheHitRate is
cachedDocuments / totalDocuments (0 when total is 0). -/
def cloneGetResults (stats : CloneStats) (entries : List ProcessedEntry) :
    CloneResult :=
  { stage := "clone"
    success := true
    stats := stats
    successCount := (entries.filter (·.success)).length
    cacheHitRate := if stats.totalDocuments > 0 then
        (stats.cachedDocuments : ℚ) / stats.totalDocuments else 0
    documents := (entries.filter (·.success)).map (·.document)
    errors := (entries.filter (fun p => !p.success)).map
      (fun p => (p.document.id, p.error)) }

/-- The body of CloneStage.execute after folder collection: reset stats,
set totalDocuments to the size of the collected set, run the incremental
check, fetch the selected contents and build the results. -/
def cloneExecute (env : CloneEnv) (allDocuments : List CloneDoc)
    (forceFullUpdate : Bool) : CloneResult :=
  let stats0 : CloneStats := { totalDocuments := allDocuments.length }
  let r1 := processDocumentsIncremental env allDocuments forceFullUpdate stats0
  let r2 := fetchDocumentContents env r1.2 r1.1
  cloneGetResults r2.1 r2.2

/-! ## Clean stage (src/stages/clean-stage.js) and the OpenAI splitting
helpers (src/services/openai-service.js)

Document contents are embedded as lists of characters so that the
JavaScript string operations (split, trim, concatenation, length) become
ordinary list operations. -/

/-- JavaScript String.prototype.trim on a character list. -/
def jsTrim (s : List Char) : List Char :=
  ((s.dropWhile Char.isWhitespace).reverse.dropWhile Char.isWhitespace).reverse

/-- JavaScript `a || b` for strings: the fallback is used when a is the
empty string (falsy). -/
def jsStrOr (a : String) (b : String) : String := if a = "" then b else a

/-- OpenAIService.splitContent token estimate:
`Math.ceil(content.length * 1.5)`. -/
def estimateTokens (s : List Char) : Nat := (3 * s.length + 1) / 2

/-- The sentence delimiters of OpenAIService.splitIntoSentences:
the regex class of 。 ！ ？ and newline. -/
def isSentenceDelim (c : Char) : Bool :=
  c = '。' || c = '！' || c = '？' || c = '\n'

/-- JavaScript String.prototype.split on the sentence delimiters, keeping
empty segments. -/
def splitOnDelims : List Char → List (List Char)
  | [] => [[]]
  | c :: rest =>
    let tail := splitOnDelims rest
    if isSentenceDelim c then [] :: tail
    else
      match tail with
      | seg :: segs => (c :: seg) :: segs
      | [] => [[c]]

/-- OpenAIService.splitIntoSentences: split on the delimiters, drop
whitespace-only segments, trim each segment and append 。.  Note that this
rewrites every delimiter (！ ？ newline) to 。 and appends 。 to a trailing
segment that had no delimiter. -/
def splitIntoSentences (text : List Char) : List (List Char) :=
  ((splitOnDelims text).filter (fun s => (jsTrim s).length > 0)).map
    (fun s => jsTrim s ++ ['。'])

/-- One step of the greedy chunk accumulation loop of
OpenAIService.splitContent. -/
def splitChunksStep (maxTokens : Nat) (st : List (List Char) × List Char)
    (sentence : List Char) : List (List Char) × List Char :=
  let (chunks, currentChunk) := st
  let potential := currentChunk ++ sentence
  if estimateTokens potential > maxTokens && currentChunk.length > 0 then
    (chunks ++ [jsTrim currentChunk], sentence)
  else
    (chunks, potential)

/-- OpenAIService.splitContent: return the content whole when its token
estimate fits, otherwise greedily pack the sentences into chunks.  The
catch branch returning the original content is dead code here: nothing in
the body throws. -/
def splitContent (content : List Char) (maxTokens : Nat) : List (List Char) :=
  if estimateTokens content ≤ maxTokens then [content]
  else
    let r := (splitIntoSentences content).foldl (splitChunksStep maxTokens) ([], [])
    if r.2.length > 0 then r.1 ++ [jsTrim r.2] else r.1

/-- A text whose first and last characters (when present) are not
whitespace.  Every sentence produced by splitIntoSentences has this shape
(it is trimmed and ends with 。), it is preserved by concatenation, and on
such texts trim is the identity — the key facts behind the chunk
accumulation loop of splitContent. -/
def noEdgeWhitespace (l : List Char) : Prop :=
  (∀ c, l.head? = some c → c.isWhitespace = false) ∧
  (∀ c, l.getLast? = some c → c.isWhitespace = false)

/-- A document flowing through the clean stage.  Optional fields model
object keys that may be absent; wordCount stands for the metadata field
written by the validation pass. -/
structure CleanDoc where
  id : String
  title : String := ""
  content : List Char := []
  ai_title : Option String := none
  summary : Option String := none
  keywords : Option (List String) := none
  category : Option String := none
  cached : Option Bool := none
  error : Option String := none
  is_split_part : Option String := none
  original_file : Option String := none
  wordCount : Option Nat := none
deriving DecidableEq

/-- The object produced by OpenAIService.processDocumentAI (title, summary,
keywords, category; an error field is present only on the degraded path). -/
structure AiResults where
  ai_title : String
  summary : String
  keywords : List String
  category : String
  error : Option String := none
deriving DecidableEq

/-- OpenAIService.processDocumentAI: run the four generation calls as one
unit of work; on failure it catches and returns the degraded result with
the original title, empty summary and keywords, the default category and
the error message — it never rejects. -/
def processDocumentAI (ai : List Char → String → Except String AiResults)
    (content : List Char) (originalTitle : String) : AiResults :=
  match ai content originalTitle with
  | .ok r => r
  | .error e =>
    { ai_title := originalTitle, summary := "", keywords := [],
      category := "其他", error := some e }

/-- The projection of a stored cache entry read by the clean stage: every
creation path of the store writes an aiResults object, so the truthiness
check `cached && cached.aiResults` reduces to the entry being present. -/
structure CleanCacheEntry where
  aiResults : AiResults
deriving DecidableEq

/-- The cache store as the clean stage sees it, keyed by document ID
(at most one entry per ID, upsert semantics of the store). -/
abbrev CleanCacheState := String → Option CleanCacheEntry

/-- MongoDBCache.updateAIResults as observed through the clean-stage view:
`updateOne({documentId}, {$set: {aiResults, updatedAt}})` without upsert —
when no entry exists for the ID nothing is written. -/
def cleanUpdateAIResults (st : CleanCacheState) (documentId : String)
    (aiResults : AiResults) : CleanCacheState :=
  fun k =>
    if k = documentId then (st k).map (fun _ => { aiResults := aiResults })
    else st k

/-- External collaborators of the clean stage: the joint outcome of the AI
calls underlying processDocumentAI, and whether the cache write
(updateAIResults) rejects for a given document ID (the only statement in
the per-document try block that can throw). -/
structure CleanEnv where
  ai : List Char → String → Except String AiResults
  updateFails : String → Option String

/-- The spread `{ ...document, ...aiResults, cached }`: the AI fields
override those of the document; an absent error key leaves the document
error field in place. -/
def mergeAiResults (document : CleanDoc) (r : AiResults) (cachedFlag : Bool) :
    CleanDoc :=
  { document with
    ai_title := some r.ai_title
    summary := some r.summary
    keywords := some r.keywords
    category := some r.category
    error := match r.error with | some e => some e | none => document.error
    cached := some cachedFlag }

/-- The clean stage statistics record. -/
structure CleanStats where
  totalDocuments : Nat := 0
  aiProcessedDocuments : Nat := 0
  cachedDocuments : Nat := 0
  splitDocuments : Nat := 0
  failedDocuments : Nat := 0
deriving DecidableEq

/-- One step of CleanStage.processDocumentsWithAI: serve from cache unless
forced, otherwise run processDocumentAI (which always resolves), write the
AI results back (updateAIResults — the catch path fires exactly when this
write rejects) and tag the document. -/
def cleanAiStep (env : CleanEnv) (forceReprocess : Bool)
    (st : CleanCacheState × CleanStats × List CleanDoc) (document : CleanDoc) :
    CleanCacheState × CleanStats × List CleanDoc :=
  let (cache, stats, out) := st
  match forceReprocess, cache document.id with
  | false, some cached =>
    (cache, { stats with cachedDocuments := stats.cachedDocuments + 1 },
      out ++ [mergeAiResults document cached.aiResults true])
  | _, _ =>
    let aiResults := processDocumentAI env.ai document.content document.title
    match env.updateFails document.id with
    | some msg =>
      (cache, { stats with failedDocuments := stats.failedDocuments + 1 },
        out ++ [{ document with
          ai_title := some document.title, summary := some "",
          keywords := some [], category := some "其他",
          cached := some false, error := some msg }])
    | none =>
      (cleanUpdateAIResults cache document.id aiResults,
        { stats with aiProcessedDocuments := stats.aiProcessedDocuments + 1 },
        out ++ [mergeAiResults document aiResults false])

/-- CleanStage.processDocumentsWithAI over the input documents (batching
and the concurrency window preserve order and per-document effects). -/
def processDocumentsWithAI (env : CleanEnv) (documents : List CleanDoc)
    (forceReprocess : Bool) (cache : CleanCacheState) (stats : CleanStats) :
    CleanCacheState × CleanStats × List CleanDoc :=
  documents.foldl (cleanAiStep env forceReprocess) (cache, stats, [])

/-- The chunk documents created for a split document: suffixed IDs, chunk
contents, part annotations. -/
def makeChunkDocs (document : CleanDoc) (chunks : List (List Char)) :
    List CleanDoc :=
  chunks.enum.map (fun p =>
    { document with
      id := document.id ++ "_part" ++ toString (p.1 + 1)
      content := p.2
      is_split_part := some (toString (p.1 + 1) ++ "/" ++ toString chunks.length)
      original_file := some document.id
      title := jsStrOr (document.ai_title.getD "") document.title ++
        " (Part " ++ toString (p.1 + 1) ++ ")" })

/-- One step of CleanStage.splitLargeDocuments: a document is replaced by
chunk documents only when splitContent produced more than one chunk. -/
def splitOneDocument (maxTokens : Nat) (st : CleanStats × List CleanDoc)
    (document : CleanDoc) : CleanStats × List CleanDoc :=
  let (stats, out) := st
  let chunks := splitContent document.content maxTokens
  if chunks.length > 1 then
    ({ stats with splitDocuments := stats.splitDocuments + 1 },
      out ++ makeChunkDocs document chunks)
  else
    (stats, out ++ [document])

/-- CleanStage.splitLargeDocuments over the AI-processed documents. -/
def splitLargeDocuments (documents : List CleanDoc) (maxTokens : Nat)
    (stats : CleanStats) : CleanStats × List CleanDoc :=
  documents.foldl (splitOneDocument maxTokens) (stats, [])

/-- One document of CleanStage.validateAndCleanDocuments: normalize the AI
title and keywords, write the metadata word count, and drop the document
(returning none) when its content is empty or whitespace-only.  The
surrounding try/catch incrementing failedDocuments is dead code: no
statement in the loop body throws, and in particular the empty-content
branch skips the document without touching the statistics. -/
def validateOneDocument (document : CleanDoc) : Option CleanDoc :=
  let ai_title :=
    match document.ai_title with
    | none => jsStrOr document.title "Untitled Document"
    | some t =>
      if (jsTrim t.data).length = 0 then jsStrOr document.title "Untitled Document"
      else t
  if (jsTrim document.content).length = 0 then none
  else
    some { document with
      ai_title := some ai_title
      keywords := some (document.keywords.getD [])
      wordCount := some document.content.length }

/-- One accumulation step of validateAndCleanDocuments. -/
def validateStep (cleaned : List CleanDoc) (d : CleanDoc) : List CleanDoc :=
  match validateOneDocument d with
  | some c => cleaned ++ [c]
  | none => cleaned

/-- CleanStage.validateAndCleanDocuments over a document list. -/
def validateAndCleanDocuments (documents : List CleanDoc) : List CleanDoc :=
  documents.foldl validateStep []

/-- The clean stage result (CleanStage.getResults). -/
structure CleanResult where
  stage : String
  success : Bool
  stats : CleanStats
  finalDocumentCount : Nat
  aiProcessingRate : ℚ
  cacheHitRate : ℚ
  documents : List CleanDoc
  errors : List (String × String)
deriving DecidableEq

/-- CleanStage.getResults: run the validation pass on the produced
documents, derive the rates (0 when totalDocuments is 0) and collect the
per-document errors of the pre-validation list. -/
def cleanGetResults (stats : CleanStats) (documents : List CleanDoc) :
    CleanResult :=
  let cleanedDocuments := validateAndCleanDocuments documents
  { stage := "clean"
    success := true
    stats := stats
    finalDocumentCount := cleanedDocuments.length
    aiProcessingRate := if stats.totalDocuments > 0 then
        (stats.aiProcessedDocuments : ℚ) / stats.totalDocuments else 0
    cacheHitRate := if stats.totalDocuments > 0 then
        (stats.cachedDocuments : ℚ) / stats.totalDocuments else 0
    documents := cleanedDocuments
    errors := (documents.filter (fun d => d.error.isSome)).map
      (fun d => (d.id, d.error.getD "")) }

/-- CleanStage.execute: on an empty document list the early return calls
getResults without a document list and validateAndCleanDocuments then
throws iterating undefined; otherwise reset the statistics, set
totalDocuments, run the AI pass, the splitting pass and getResults.  The
returned pair carries the cache store state after the run. -/
def cleanExecute (env : CleanEnv) (cache : CleanCacheState)
    (documents : List CleanDoc) (forceReprocess : Bool) (maxTokens : Nat) :
    Except String (CleanCacheState × CleanResult) :=
  if documents = [] then .error "documents is not iterable"
  else
    let stats0 : CleanStats := { totalDocuments := documents.length }
    let r1 := processDocumentsWithAI env documents forceReprocess cache stats0
    let r2 := splitLargeDocuments r1.2.2 maxTokens r1.2.1
    .ok (r1.1, cleanGetResults r2.1 r2.2)

/-! ## Upload stage (src/stages/upload-stage.js) -/

/-- A document entering the upload stage (produced by the clean stage; it
carries no embedding fields of its own). -/
structure UploadDocIn where
  id : String
  title : String := ""
  ai_title : Option String := none
  content : List Char := []
  summary : Option String := none
  keywords : Option (List String) := none
  category : Option String := none
deriving DecidableEq

/-- A document after the embedding phase: the spread of the input document
with embedding, cached flag and optional embeddingError. -/
structure UploadDocOut where
  doc : UploadDocIn
  embedding : List Int
  cached : Bool
  embeddingError : Option String := none
deriving DecidableEq

/-- The projection of a stored cache entry read by the upload stage. -/
structure UploadCacheEntry where
  embedding : List Int
deriving DecidableEq

/-- The per-batch outcome of ElasticsearchClient.bulkIndexDocuments. -/
structure BulkResult where
  success : Nat
  failed : Nat
deriving DecidableEq

/-- External collaborators of the upload stage. -/
structure UploadEnv where
  getCachedDocument : String → Option UploadCacheEntry
  generateEmbedding : List Char → Except String (List Int)
  bulkIndexDocuments : List UploadDocOut → Except String BulkResult

/-- The upload stage statistics record. -/
structure UploadStats where
  totalDocuments : Nat := 0
  embeddedDocuments : Nat := 0
  indexedDocuments : Nat := 0
  cachedEmbeddings : Nat := 0
  failedDocuments : Nat := 0
deriving DecidableEq

/-- The embedding width of the Elasticsearch index mapping
(src/services/elasticsearch-client.js: dense_vector dims 1536, the
text-embedding-ada-002 dimension). -/
def esEmbeddingDims : Nat := 1536

/-- The cache-reuse check of UploadStage.generateEmbeddings: an embedding
is reused when reindexing is not forced and the cached entry holds a
non-empty embedding. -/
def cachedEmbeddingHit (env : UploadEnv) (forceReindex : Bool)
    (d : UploadDocIn) : Option (List Int) :=
  if forceReindex then none
  else
    match env.getCachedDocument d.id with
    | some e => if e.embedding.length > 0 then some e.embedding else none
    | none => none

/-- The document pushed for a cache hit in the first loop of
generateEmbeddings. -/
def cacheHitDoc (env : UploadEnv) (forceReindex : Bool) (d : UploadDocIn) :
    UploadDocOut :=
  { doc := d, embedding := (cachedEmbeddingHit env forceReindex d).getD []
    cached := true }

/-- One step of the cache-check loop of UploadStage.generateEmbeddings. -/
def embedCacheStep (env : UploadEnv) (forceReindex : Bool)
    (acc : UploadStats × List UploadDocOut × List UploadDocIn)
    (d : UploadDocIn) : UploadStats × List UploadDocOut × List UploadDocIn :=
  let (stats, withEmb, toEmbed) := acc
  match cachedEmbeddingHit env forceReindex d with
  | some emb =>
    ({ stats with cachedEmbeddings := stats.cachedEmbeddings + 1 },
      withEmb ++ [{ doc := d, embedding := emb, cached := true }], toEmbed)
  | none => (stats, withEmb, toEmbed ++ [d])

/-- The merge of one embedding outcome: a resolved call attaches the
vector; a failed call substitutes the zero vector `new Array(1536).fill(0)`
and records the error on the document. -/
def embedOutcome (env : UploadEnv) (d : UploadDocIn) : UploadDocOut :=
  match env.generateEmbedding d.content with
  | .ok embedding => { doc := d, embedding := embedding, cached := false }
  | .error e =>
    { doc := d, embedding := List.replicate 1536 0, cached := false,
      embeddingError := some e }

/-- Whether the embedding call fails for a document. -/
def embedFails (env : UploadEnv) (d : UploadDocIn) : Bool :=
  match env.generateEmbedding d.content with
  | .ok _ => false
  | .error _ => true

/-- One step of the merge loop of UploadStage.generateEmbeddings. -/
def embedGenStep (env : UploadEnv) (acc : UploadStats × List UploadDocOut)
    (d : UploadDocIn) : UploadStats × List UploadDocOut :=
  let (stats, out) := acc
  match env.generateEmbedding d.content with
  | .ok embedding =>
    ({ stats with embeddedDocuments := stats.embeddedDocuments + 1 },
      out ++ [{ doc := d, embedding := embedding, cached := false }])
  | .error e =>
    ({ stats with failedDocuments := stats.failedDocuments + 1 },
      out ++ [{ doc := d, embedding := List.replicate 1536 0,
                cached := false, embeddingError := some e }])

/-- UploadStage.generateEmbeddings: first serve cached embeddings, then
generate embeddings for the remaining documents in order (the batching of
batchGenerateEmbeddings preserves order). -/
def generateEmbeddings (env : UploadEnv) (documents : List UploadDocIn)
    (forceReindex : Bool) (stats : UploadStats) :
    UploadStats × List UploadDocOut :=
  let init := documents.foldl (embedCacheStep env forceReindex) (stats, [], [])
  init.2.2.foldl (embedGenStep env) (init.1, init.2.1)

/-- Structural worker for chunkArray: the fuel bounds the number of loop
iterations; the list shrinks by at least one element per iteration for any
positive size, so fuel equal to the list length is enough. -/
def chunkArrayAux {α : Type} : Nat → List α → Nat → List (List α)
  | _, [], _ => []
  | 0, _ :: _, _ => []
  | fuel + 1, x :: xs, size =>
    (x :: xs).take size :: chunkArrayAux fuel ((x :: xs).drop size) size

/-- The chunkArray utility shared by the stages.  The source loop does not
terminate on size 0; every caller passes a positive batch size, so that
case is mapped to the empty chunk list here. -/
def chunkArray {α : Type} (l : List α) (size : Nat) : List (List α) :=
  if size = 0 then [] else chunkArrayAux l.length l size

/-- One batch of UploadStage.buildElasticsearchIndex: on a resolved bulk
call add its success count; on a thrown batch call count the whole batch
as failed and continue. -/
def indexOneBatch (env : UploadEnv) (stats : UploadStats)
    (batch : List UploadDocOut) : UploadStats :=
  match env.bulkIndexDocuments batch with
  | .ok r => { stats with indexedDocuments := stats.indexedDocuments + r.success }
  | .error _ =>
    { stats with failedDocuments := stats.failedDocuments + batch.length }

/-- UploadStage.buildElasticsearchIndex over the embedded documents. -/
def buildElasticsearchIndex (env : UploadEnv) (documents : List UploadDocOut)
    (batchSize : Nat) (stats : UploadStats) : UploadStats :=
  (chunkArray documents batchSize).foldl (indexOneBatch env) stats

/-- The number of documents counted failed by the indexing pass: the sizes
of the batches whose bulk call threw. -/
def uploadIndexFailureCount (env : UploadEnv) (documents : List UploadDocOut)
    (batchSize : Nat) : Nat :=
  ((chunkArray documents batchSize).map (fun b =>
    match env.bulkIndexDocuments b with
    | .error _ => b.length
    | .ok _ => 0)).sum

/-- The upload stage result (UploadStage.getResults); the errors list is
always empty because nothing is ever pushed to stats.processedDocuments. -/
structure UploadResult where
  stage : String
  success : Bool
  stats : UploadStats
  embeddingGenerationRate : ℚ
  indexingSuccessRate : ℚ
  cacheHitRate : ℚ
deriving DecidableEq

/-- UploadStage.getResults: the three rates derived from the statistics,
each 0 when totalDocuments is 0. -/
def uploadGetResults (stats : UploadStats) : UploadResult :=
  { stage := "upload"
    success := true
    stats := stats
    embeddingGenerationRate := if stats.totalDocuments > 0 then
        (stats.embeddedDocuments : ℚ) / stats.totalDocuments else 0
    indexingSuccessRate := if stats.totalDocuments > 0 then
        (stats.indexedDocuments : ℚ) / stats.totalDocuments else 0
    cacheHitRate := if stats.totalDocuments > 0 then
        (stats.cachedEmbeddings : ℚ) / stats.totalDocuments else 0 }

/-- UploadStage.execute: early return with the zeroed statistics on an
empty input; otherwise reset statistics, generate embeddings, build the
index and return getResults.  The cache update pass (batchCacheDocuments)
changes no statistics and its failures are logged only, so it does not
appear in the returned result. -/
def uploadExecute (env : UploadEnv) (documents : List UploadDocIn)
    (forceReindex : Bool) (batchSize : Nat) : UploadResult :=
  if documents = [] then uploadGetResults {}
  else
    let stats0 : UploadStats := { totalDocuments := documents.length }
    let r1 := generateEmbeddings env documents forceReindex stats0
    let stats2 := buildElasticsearchIndex env r1.2 batchSize r1.1
    uploadGetResults stats2

/-! ## Cache layer (src/services/mongodb-cache.js)

Documents and stored artifacts are JSON values; the fingerprint is an md5
digest (kept abstract) of `JSON.stringify` of the hashed value. -/

/-- The JSON value model. -/
inductive JsValue where
  | jnull
  | jbool (b : Bool)
  | jnum (n : Int)
  | jstr (s : String)
  | jarr (items : List JsValue)
  | jobj (fields : List (String × JsValue))

/-- JSON string escaping of one character (quote and backslash); the
serialized text is embedded as a character list. -/
def escapeChar (c : Char) : List Char :=
  if c = '"' then ['\\', '"'] else if c = '\\' then ['\\', '\\'] else [c]

/-- JSON string escaping. -/
def escapeString (s : String) : List Char := (s.data.map escapeChar).flatten

mutual

/-- JSON.stringify over the value model, object keys in insertion order. -/
def jsonStringify : JsValue → List Char
  | .jnull => "null".data
  | .jbool true => "true".data
  | .jbool false => "false".data
  | .jnum n => (toString n).data
  | .jstr s => '"' :: (escapeString s ++ ['"'])
  | .jarr items => '[' :: (stringifyItems items ++ [']'])
  | .jobj fields =>
    Char.ofNat 123 :: (stringifyFields fields ++ [Char.ofNat 125])

/-- The comma-joined serializations of array items. -/
def stringifyItems : List JsValue → List Char
  | [] => []
  | [v] => jsonStringify v
  | v :: rest => jsonStringify v ++ [','] ++ stringifyItems rest

/-- The comma-joined serializations of object fields. -/
def stringifyFields : List (String × JsValue) → List Char
  | [] => []
  | [(k, v)] => '"' :: (escapeString k ++ ['"', ':'] ++ jsonStringify v)
  | (k, v) :: rest =>
    '"' :: (escapeString k ++ ['"', ':'] ++ jsonStringify v ++ [','] ++
      stringifyFields rest)

end

/-- MongoDBCache.calculateHash: an md5 digest of JSON.stringify of the
input.  The digest function is a parameter; collision resistance enters
the theorems as an injectivity hypothesis. -/
def calculateHash (md5 : List Char → String) (content : JsValue) : String :=
  md5 (jsonStringify content)

/-- JavaScript truthiness of a JSON value. -/
def jsTruthy : JsValue → Bool
  | .jnull => false
  | .jbool b => b
  | .jnum n => decide (n ≠ 0)
  | .jstr s => decide (s ≠ "")
  | .jarr _ => true
  | .jobj _ => true

/-- A source document as the cache layer receives it: the id property and
the remaining own fields in object order; its JSON form is the whole
object. -/
structure SrcDocument where
  id : String
  fields : List (String × JsValue)

/-- The JSON object form of a source document. -/
def SrcDocument.json (d : SrcDocument) : JsValue :=
  .jobj (("id", .jstr d.id) :: d.fields)

/-- Property access on a source document (undefined becomes null, which is
falsy like undefined). -/
def fieldVal (d : SrcDocument) (k : String) : JsValue :=
  match d.fields.lookup k with
  | some v => v
  | none => .jnull

/-- JavaScript `a || b` on JSON values. -/
def jsOrVal (a b : JsValue) : JsValue := if jsTruthy a then a else b

/-- A stored cache entry (the document written by cacheDocument). -/
structure MCacheEntry where
  documentId : String
  hash : String
  type : JsValue
  originalDocument : JsValue
  processedContent : JsValue
  aiResults : JsValue
  metadata : JsValue
  createdAt : Int
  updatedAt : Int
  lastModified : JsValue

/-- The cache collection keyed by documentId; the unique index on
documentId and the replaceOne/updateOne filters keep at most one entry per
ID. -/
abbrev MCacheStore := String → Option MCacheEntry

/-- The metadata subdocument written by cacheDocument. -/
def mkMetadata (document : SrcDocument) : JsValue :=
  .jobj [("title", jsOrVal (fieldVal document "name") (fieldVal document "title")),
         ("source", jsOrVal (fieldVal document "source") (.jstr "feishu")),
         ("created_time", fieldVal document "created_time"),
         ("modified_time", fieldVal document "modified_time"),
         ("owner_id", fieldVal document "owner_id")]

/-- MongoDBCache.cacheDocument: build the cache entry — whose hash is the
digest of the whole document object — and replaceOne it with upsert. -/
def cacheDocument (md5 : List Char → String) (store : MCacheStore)
    (document : SrcDocument) (processedContent aiResults : JsValue)
    (now : Int) : MCacheStore :=
  let entry : MCacheEntry :=
    { documentId := document.id
      hash := calculateHash md5 document.json
      type := jsOrVal (fieldVal document "type") (.jstr "doc")
      originalDocument := document.json
      processedContent := processedContent
      aiResults := aiResults
      metadata := mkMetadata document
      createdAt := now
      updatedAt := now
      lastModified := jsOrVal (fieldVal document "modified_time") (.jnum now) }
  fun k => if k = document.id then some entry else store k

/-- MongoDBCache.isDocumentCached: hash the content argument and look for
an entry matching both the documentId and that hash.  (The catch returning
false on a store error is a connectivity path outside this model.) -/
def isDocumentCached (md5 : List Char → String) (store : MCacheStore)
    (documentId : String) (content : JsValue) : Bool :=
  match store documentId with
  | some entry => decide (entry.hash = calculateHash md5 content)
  | none => false

/-- MongoDBCache.updateAIResults:
`updateOne({documentId}, {$set: {aiResults, updatedAt: new Date()}})` —
a partial update of an existing entry, no upsert. -/
def updateAIResults (store : MCacheStore) (documentId : String)
    (aiResults : JsValue) (now : Int) : MCacheStore :=
  fun k =>
    if k = documentId then
      (store k).map (fun e => { e with aiResults := aiResults, updatedAt := now })
    else store k

/-! ## Concrete instances used by counterexamples and witnesses -/

/-- A concrete cache entry with createdAt = updatedAt = 0. -/
def c8entry : MCacheEntry :=
  { documentId := "d"
    hash := "h"
    type := .jstr "doc"
    originalDocument := .jnull
    processedContent := .jnull
    aiResults := .jnull
    metadata := .jnull
    createdAt := 0
    updatedAt := 0
    lastModified := .jnull }

/-- A concrete store holding exactly the entry c8entry under id d. -/
def c8store : MCacheStore := fun k => if k = "d" then some c8entry else none

/-- A concrete source document with a content field. -/
def c9doc : SrcDocument := { id := "d9", fields := [("content", .jstr "body")] }

/-- A concrete upload environment: no cached embeddings, embedding fails
exactly for the contents d and e, bulk indexing resolves. -/
def c6env : UploadEnv :=
  { getCachedDocument := fun _ => none
    generateEmbedding := fun content =>
      if content = ['d'] || content = ['e'] then .error "embed fail"
      else .ok [1, 2]
    bulkIndexDocuments := fun b => .ok { success := b.length, failed := 0 } }

/-- Five concrete upload documents; the embedding call of c6env fails for
the last two. -/
def c6docs : List UploadDocIn :=
  [{ id := "1", content := ['a'] }, { id := "2", content := ['b'] },
   { id := "3", content := ['c'] }, { id := "4", content := ['d'] },
   { id := "5", content := ['e'] }]

end RagPipeline

namespace RagPipeline

/-- C1: when the clone stage resolves with a document set A and the clean
stage execute throws: if failFast is not set to false, executePipeline
rejects with an error naming the failing stage; if failFast is false, it
resolves, the clean entry of the stages map is the failure record (whose
success flag is false), and the upload stage is still executed on A, the
document set produced by the last stage that succeeded. -/
theorem executePipeline_failfast_policy {α : Type} (b : StageBehaviors α)
    (opts : PipelineOptions) (r1 : OStageResult α) (A : List α) (e : String)
    (hft : opts.folderTokens ≠ [])
    (hskip : opts.skipStages = [])
    (hclone : b.clone opts.folderTokens = .ok r1)
    (hdocs : r1.documents = some A)
    (hclean : b.clean (some A) = .error e) :
    (opts.failFast ≠ some false →
      executePipeline b opts =
        .error ("Pipeline failed at stage clean: " ++ e)) ∧
    (opts.failFast = some false →
      executePipeline b opts =
        .ok { success := true,
              stages := [("clone", recordOfResult r1),
                         ("clean", recordOfFailure e),
                         ("upload", recordOfOutcome (b.upload (some A)))] } ∧
      (recordOfFailure e : StageRecord α).success = false) := by
  unfold executePipeline
  rw [if_neg hft]
  constructor
  · intro hff
    simp only [runStages, hskip, List.not_mem_nil, if_false, hclone, hdocs,
      Option.isSome_some, if_true, hclean, if_pos hff]
    rfl
  · intro hff
    refine ⟨?_, rfl⟩
    simp only [runStages, hskip, List.not_mem_nil, if_false, hclone, hdocs,
      Option.isSome_some, if_true, hclean, hff]
    simp only [ne_eq, not_true_eq_false, if_false, List.nil_append,
      List.append_assoc, List.singleton_append]
    cases hu : b.upload (some A) <;>
      simp [runStages, hskip, recordOfOutcome, Except.map]

/-- Witness for C1 at a concrete pipeline: clone produces [1, 2], clean
throws, upload resolves; under failFast=false the pipeline resolves with the
failure recorded for clean and upload run on the clone output. -/
theorem executePipeline_failfast_policy_witness :
    executePipeline
        { clone := fun _ => .ok { success := true, documents := some [1, 2] },
          clean := fun _ => .error "boom",
          upload := fun _ => .ok { success := true, documents := some [3] } }
        { folderTokens := ["f"], failFast := some false } =
      .ok { success := true,
            stages := [("clone", recordOfResult
                          { success := true, documents := some ([1, 2] : List Nat) }),
                       ("clean", recordOfFailure "boom"),
                       ("upload", recordOfOutcome
                          (.ok { success := true, documents := some [3] }))] } :=
  ((executePipeline_failfast_policy
      { clone := fun _ => .ok { success := true, documents := some [1, 2] },
        clean := fun _ => .error "boom",
        upload := fun _ => .ok { success := true, documents := some [3] } }
      { folderTokens := ["f"], failFast := some false }
      { success := true, documents := some [1, 2] } [1, 2] "boom"
      (by decide) rfl rfl rfl rfl).2 rfl).1

/-- C10: whenever executePipeline resolves, the top-level success field of
the result is the literal true; in particular a failFast=false run in which
the clean stage threw still resolves with success = true, the per-stage
failure being visible only in the stages map entry. -/
theorem executePipeline_resolved_success :
    (∀ (α : Type) (b : StageBehaviors α) (opts : PipelineOptions)
        (res : PipelineResult α),
      executePipeline b opts = .ok res → res.success = true) ∧
    (∃ res : PipelineResult Nat,
      executePipeline
          { clone := fun _ => .ok { success := true, documents := some [1] },
            clean := fun _ => .error "clean failed",
            upload := fun _ => .ok { success := true, documents := some [2] } }
          { folderTokens := ["f"], failFast := some false } = .ok res ∧
      res.success = true ∧
      res.stages.lookup "clean" = some (recordOfFailure "clean failed")) := by
  constructor
  · intro α b opts res h
    unfold executePipeline at h
    split at h
    · exact absurd h (by simp)
    · cases hx : runStages opts.failFast opts.skipStages
          [("clone", fun _ => b.clone opts.folderTokens),
           ("clean", fun cur => b.clean cur),
           ("upload", fun cur => b.upload cur)] none [] with
      | error e => rw [hx] at h; exact absurd h (by simp [Except.map])
      | ok recs =>
        rw [hx] at h
        simp only [Except.map, Except.ok.injEq] at h
        rw [← h]
  · exact ⟨_, rfl, rfl, rfl⟩

/-- Witness for C10: the universally quantified component applied to a
concrete resolving pipeline run. -/
theorem executePipeline_resolved_success_witness :
    ({ success := true,
       stages := [("clone", recordOfResult
                     { success := true, documents := some ([] : List Nat) })] } :
      PipelineResult Nat).success = true :=
  executePipeline_resolved_success.1 Nat
    { clone := fun _ => .ok { success := true, documents := some [] },
      clean := fun _ => .ok { success := true, documents := some [] },
      upload := fun _ => .ok { success := true, documents := some [] } }
    { folderTokens := ["f"], skipStages := ["clean", "upload"] } _ rfl

/-- C7: evaluation of the staleness check at the failing input.  When both
timestamps are valid the check behaves as specified (changed iff strictly
later, hence unchanged iff not later), but a document whose reported
modification timestamp does not parse is silently treated as UNCHANGED
(isDocumentModified returns false), because `new Date` yields NaN instead
of throwing and every NaN comparison is false — the catch branch that
would treat the document as changed is unreachable. -/
theorem isDocumentModified_parse_error_behavior :
    isDocumentModified { id := "doc1", modified_time := .time 5 }
      { lastModified := .time 3 } = true ∧
    isDocumentModified { id := "doc1", modified_time := .time 3 }
      { lastModified := .time 5 } = false ∧
    isDocumentModified { id := "doc1", modified_time := .time 3 }
      { lastModified := .time 3 } = false ∧
    isDocumentModified { id := "doc1", modified_time := .invalid }
      { lastModified := .time 3 } = false := by
  decide

/-- C8 counterexample: updateAIResults does not preserve every timestamp —
at an entry whose updatedAt is 0, the updated entry has updatedAt 1. -/
theorem updateAIResults_refreshes_updatedAt :
    (updateAIResults c8store "d" (.jobj []) 1 "d").map MCacheEntry.updatedAt =
      some 1 ∧ (1 : Int) ≠ 0 ∧ (c8store "d").map MCacheEntry.updatedAt = some 0 := by
  refine ⟨rfl, by decide, rfl⟩

/-- C8 amended: for a document ID with an existing entry, updateAIResults
replaces only the aiResults field and refreshes the updatedAt timestamp;
every other field of the entry (hash fingerprint, original document,
processed content, metadata, type, createdAt, lastModified, documentId) is
preserved, and entries under every other ID are untouched. -/
theorem updateAIResults_frame_update (store : MCacheStore)
    (documentId : String) (aiResults : JsValue) (now : Int) (e : MCacheEntry)
    (h : store documentId = some e) :
    updateAIResults store documentId aiResults now documentId =
      some { e with aiResults := aiResults, updatedAt := now } ∧
    (∀ k, k ≠ documentId → updateAIResults store documentId aiResults now k = store k) := by
  constructor
  · simp [updateAIResults, h]
  · intro k hk
    simp [updateAIResults, hk]

/-- Witness for C8 at the concrete store: the entry under d is replaced by
its copy with the new aiResults and updatedAt, all other fields intact. -/
theorem updateAIResults_frame_update_witness :
    updateAIResults c8store "d" (.jobj []) 1 "d" =
      some { c8entry with aiResults := .jobj [], updatedAt := 1 } :=
  (updateAIResults_frame_update c8store "d" (.jobj []) 1 c8entry rfl).1

/-- C2 counterexample: a clone stage execution on one uncached document
whose content fetch fails counts the document both as new and as failed, so
failed + cached + (new + updated) = 2 exceeds totalDocuments = 1. -/
theorem clone_conservation_counterexample :
    ((cloneExecute
        { getCachedDocument := fun _ => none
          getDocumentContent := fun _ _ => .error "network error"
          processDocumentSync := fun d _ => .ok d }
        [{ id := "d1" }] false).stats.failedDocuments +
      (cloneExecute
        { getCachedDocument := fun _ => none
          getDocumentContent := fun _ _ => .error "network error"
          processDocumentSync := fun d _ => .ok d }
        [{ id := "d1" }] false).stats.cachedDocuments +
      ((cloneExecute
        { getCachedDocument := fun _ => none
          getDocumentContent := fun _ _ => .error "network error"
          processDocumentSync := fun d _ => .ok d }
        [{ id := "d1" }] false).stats.newDocuments +
       (cloneExecute
        { getCachedDocument := fun _ => none
          getDocumentContent := fun _ _ => .error "network error"
          processDocumentSync := fun d _ => .ok d }
        [{ id := "d1" }] false).stats.updatedDocuments) = 2) ∧
    (cloneExecute
        { getCachedDocument := fun _ => none
          getDocumentContent := fun _ _ => .error "network error"
          processDocumentSync := fun d _ => .ok d }
        [{ id := "d1" }] false).stats.totalDocuments = 1 ∧ (2 : Nat) ≠ 1 := by
  refine ⟨rfl, rfl, by decide⟩

/-- C3 counterexample: running the clean stage twice with force=false on an
unmodified one-document set starting from an empty cache leaves the second
run with cachedDocuments = 0 while totalDocuments = 1: the AI write-back
(updateAIResults, no upsert) never creates the missing cache entry, so
nothing is served from cache on the second run. -/
theorem clean_cache_idempotence_counterexample :
    ((cleanExecute
        { ai := fun _ t => .ok { ai_title := t, summary := "s", keywords := ["k"], category := "c" }
          updateFails := fun _ => none }
        (fun _ => none) [{ id := "d1", title := "t", content := ['a'] }]
        false 7000).toOption.bind
      (fun p =>
        (cleanExecute
          { ai := fun _ t => .ok { ai_title := t, summary := "s", keywords := ["k"], category := "c" }
            updateFails := fun _ => none }
          p.1 [{ id := "d1", title := "t", content := ['a'] }]
          false 7000).toOption.map
        (fun q => (q.2.stats.cachedDocuments, q.2.stats.totalDocuments)))) =
      some (0, 1) ∧ (0 : Nat) ≠ 1 := by
  refine ⟨rfl, by decide⟩

/-- C4 counterexample: a document of 5 characters with no sentence
delimiter exceeds the threshold 3 (its token estimate is 8) yet the
splitting pass keeps it as one unsplit document instead of replacing it
with at least two chunks; moreover for content a！b over threshold the two
produced chunks concatenate to a。b。, which differs from the original
content even after discarding whitespace — the splitter rewrites the
delimiters. -/
theorem split_not_as_specified_counterexample :
    estimateTokens ['a', 'b', 'c', 'd', 'e'] > 3 ∧
    (splitOneDocument 3 ({}, [])
        { id := "d1", title := "t", content := ['a', 'b', 'c', 'd', 'e'] }).2 =
      [{ id := "d1", title := "t", content := ['a', 'b', 'c', 'd', 'e'] }] ∧
    estimateTokens ['a', '！', 'b'] > 1 ∧
    splitContent ['a', '！', 'b'] 1 = [['a', '。'], ['b', '。']] ∧
    (['a', '。', 'b', '。'].filter (fun c => !c.isWhitespace)) ≠
      (['a', '！', 'b'].filter (fun c => !c.isWhitespace)) := by
  decide

/-- C5 counterexample: a whitespace-only document that reaches the clean
stage is dropped from the output document set but failedDocuments stays 0 —
the empty-content branch of validateAndCleanDocuments skips the document
without counting a failure. -/
theorem clean_empty_content_not_counted_counterexample :
    ((cleanExecute
        { ai := fun _ t => .ok { ai_title := t, summary := "s", keywords := [], category := "c" }
          updateFails := fun _ => none }
        (fun _ => none) [{ id := "d1", title := "t", content := [' '] }]
        false 7000).toOption.map
      (fun p => (p.2.documents, p.2.stats.failedDocuments))) = some ([], 0) ∧
    (0 : Nat) ≠ 1 := by
  refine ⟨rfl, by decide⟩

/-- Closed form of the cache-check loop of generateEmbeddings: cache hits
are counted and pushed in order, misses are queued for embedding. -/
theorem embedCacheStep_fold (env : UploadEnv) (force : Bool)
    (docs : List UploadDocIn) :
    ∀ (stats : UploadStats) (withEmb : List UploadDocOut)
      (toEmbed : List UploadDocIn),
    docs.foldl (embedCacheStep env force) (stats, withEmb, toEmbed) =
      ({ stats with cachedEmbeddings := stats.cachedEmbeddings +
          (docs.filter (fun d => (cachedEmbeddingHit env force d).isSome)).length },
        withEmb ++ (docs.filter (fun d => (cachedEmbeddingHit env force d).isSome)).map
          (cacheHitDoc env force),
        toEmbed ++ docs.filter (fun d => (cachedEmbeddingHit env force d).isNone)) := by
  induction docs with
  | nil => intro stats withEmb toEmbed; simp
  | cons d ds ih =>
    intro stats withEmb toEmbed
    cases h : cachedEmbeddingHit env force d with
    | some emb =>
      simp only [List.foldl_cons, embedCacheStep, h]
      rw [ih]
      simp [List.filter_cons, h, cacheHitDoc, Nat.add_assoc, Nat.add_comm 1]
    | none =>
      simp only [List.foldl_cons, embedCacheStep, h]
      rw [ih]
      simp [List.filter_cons, h]

/-- The merge loop of generateEmbeddings appends the embedding outcomes in
input order. -/
theorem embedGenStep_fold_out (env : UploadEnv) (texts : List UploadDocIn) :
    ∀ (stats : UploadStats) (out : List UploadDocOut),
    (texts.foldl (embedGenStep env) (stats, out)).2 =
      out ++ texts.map (embedOutcome env) := by
  induction texts with
  | nil => intro stats out; simp
  | cons d ds ih =>
    intro stats out
    cases h : env.generateEmbedding d.content with
    | ok emb =>
      simp only [List.foldl_cons, embedGenStep, h]
      rw [ih]
      simp only [List.map_cons, embedOutcome, h, List.append_assoc,
        List.singleton_append]
    | error e =>
      simp only [List.foldl_cons, embedGenStep, h]
      rw [ih]
      simp only [List.map_cons, embedOutcome, h, List.append_assoc,
        List.singleton_append]

/-- The merge loop of generateEmbeddings counts one success or one failure
per document and touches no other statistic. -/
theorem embedGenStep_fold_stats (env : UploadEnv) (texts : List UploadDocIn) :
    ∀ (stats : UploadStats) (out : List UploadDocOut),
    (texts.foldl (embedGenStep env) (stats, out)).1 =
      { stats with
        embeddedDocuments := stats.embeddedDocuments +
          (texts.filter (fun d => !embedFails env d)).length
        failedDocuments := stats.failedDocuments +
          (texts.filter (embedFails env)).length } := by
  induction texts with
  | nil => intro stats out; simp
  | cons d ds ih =>
    intro stats out
    cases h : env.generateEmbedding d.content with
    | ok emb =>
      simp only [List.foldl_cons, embedGenStep, h]
      rw [ih]
      simp [List.filter_cons, embedFails, h] <;> omega
    | error e =>
      simp only [List.foldl_cons, embedGenStep, h]
      rw [ih]
      simp [List.filter_cons, embedFails, h] <;> omega

/-- Closed form of the indexing loop: resolved batches add their success
counts, thrown batches add their sizes to failedDocuments. -/
theorem indexOneBatch_fold (env : UploadEnv)
    (batches : List (List UploadDocOut)) :
    ∀ stats : UploadStats,
    batches.foldl (indexOneBatch env) stats =
      { stats with
        indexedDocuments := stats.indexedDocuments +
          (batches.map (fun b => match env.bulkIndexDocuments b with
            | .ok r => r.success
            | .error _ => 0)).sum
        failedDocuments := stats.failedDocuments +
          (batches.map (fun b => match env.bulkIndexDocuments b with
            | .error _ => b.length
            | .ok _ => 0)).sum } := by
  induction batches with
  | nil => intro stats; simp
  | cons b bs ih =>
    intro stats
    cases h : env.bulkIndexDocuments b with
    | ok r =>
      simp only [List.foldl_cons, indexOneBatch, h]
      rw [ih]
      simp [h, Nat.add_assoc]
    | error e =>
      simp only [List.foldl_cons, indexOneBatch, h]
      rw [ih]
      simp [h, Nat.add_assoc]

/-- One incremental-check step counts the document on exactly one of the
new / updated / cached counters and touches neither failedDocuments nor
totalDocuments. -/
theorem classifyDocument_step (env : CloneEnv) (force : Bool)
    (stats : CloneStats) (tp : List CloneDoc) (d : CloneDoc) :
    ∃ (stats2 : CloneStats) (tp2 : List CloneDoc),
      classifyDocument env force (stats, tp) d = (stats2, tp2) ∧
      stats2.newDocuments + stats2.updatedDocuments + stats2.cachedDocuments =
        stats.newDocuments + stats.updatedDocuments + stats.cachedDocuments + 1 ∧
      stats2.failedDocuments = stats.failedDocuments ∧
      stats2.totalDocuments = stats.totalDocuments := by
  unfold classifyDocument
  rcases env.getCachedDocument d.id with _ | entry <;> cases force
  · exact ⟨_, _, rfl, by simp <;> omega, rfl, rfl⟩
  · exact ⟨_, _, rfl, by simp <;> omega, rfl, rfl⟩
  · by_cases hm : isDocumentModified d entry
    · simp only [hm, if_true]
      exact ⟨_, _, rfl, by simp <;> omega, rfl, rfl⟩
    · simp only [hm, if_false]
      exact ⟨_, _, rfl, by simp <;> omega, rfl, rfl⟩
  · exact ⟨_, _, rfl, by simp <;> omega, rfl, rfl⟩

/-- The incremental-check loop counts every document exactly once across
the new / updated / cached counters and touches neither failedDocuments
nor totalDocuments. -/
theorem classifyDocument_fold_stats (env : CloneEnv) (force : Bool)
    (docs : List CloneDoc) :
    ∀ (stats : CloneStats) (tp : List CloneDoc),
    ((docs.foldl (classifyDocument env force) (stats, tp)).1.newDocuments +
        (docs.foldl (classifyDocument env force) (stats, tp)).1.updatedDocuments +
        (docs.foldl (classifyDocument env force) (stats, tp)).1.cachedDocuments =
      stats.newDocuments + stats.updatedDocuments + stats.cachedDocuments +
        docs.length) ∧
    (docs.foldl (classifyDocument env force) (stats, tp)).1.failedDocuments =
      stats.failedDocuments ∧
    (docs.foldl (classifyDocument env force) (stats, tp)).1.totalDocuments =
      stats.totalDocuments := by
  induction docs with
  | nil => intro stats tp; simp
  | cons d ds ih =>
    intro stats tp
    obtain ⟨stats2, tp2, hstep, hsum, hfail, htot⟩ :=
      classifyDocument_step env force stats tp d
    obtain ⟨h1, h2, h3⟩ := ih stats2 tp2
    simp only [List.foldl_cons, hstep, List.length_cons]
    refine ⟨by omega, by omega, by omega⟩

/-- The fetch loop changes only failedDocuments, by exactly the number of
selected documents whose fetch or extraction fails. -/
theorem fetchOneDocument_fold_stats (env : CloneEnv) (docs : List CloneDoc) :
    ∀ (stats : CloneStats) (acc : List ProcessedEntry),
    (docs.foldl (fetchOneDocument env) (stats, acc)).1 =
      { stats with failedDocuments := stats.failedDocuments +
          (docs.filter (cloneFetchFails env)).length } := by
  induction docs with
  | nil => intro stats acc; simp
  | cons d ds ih =>
    intro stats acc
    rcases hf : env.getDocumentContent d.id d.type with e | content
    · simp only [List.foldl_cons, fetchOneDocument, hf]
      rw [ih]
      simp [List.filter_cons, cloneFetchFails, hf, Nat.add_assoc, Nat.add_comm 1]
    · rcases hp : env.processDocumentSync d content with e | processed
      · simp only [List.foldl_cons, fetchOneDocument, hf, hp]
        rw [ih]
        simp [List.filter_cons, cloneFetchFails, hf, hp, Nat.add_assoc,
          Nat.add_comm 1]
      · simp only [List.foldl_cons, fetchOneDocument, hf, hp]
        rw [ih]
        simp [List.filter_cons, cloneFetchFails, hf, hp]

/-- One AI-loop step counts the document on exactly one of the cached /
aiProcessed / failed counters and preserves totalDocuments. -/
theorem cleanAiStep_step (env : CleanEnv) (force : Bool)
    (cache : CleanCacheState) (stats : CleanStats) (out : List CleanDoc)
    (d : CleanDoc) :
    ∃ (cache2 : CleanCacheState) (stats2 : CleanStats) (out2 : List CleanDoc),
      cleanAiStep env force (cache, stats, out) d = (cache2, stats2, out2) ∧
      stats2.cachedDocuments + stats2.aiProcessedDocuments +
          stats2.failedDocuments =
        stats.cachedDocuments + stats.aiProcessedDocuments +
          stats.failedDocuments + 1 ∧
      stats2.totalDocuments = stats.totalDocuments := by
  cases force <;> rcases hc : cache d.id with _ | entry <;>
      rcases hw : env.updateFails d.id with _ | msg <;>
    simp only [cleanAiStep, hc, hw] <;>
    exact ⟨_, _, _, rfl, by simp <;> omega, by simp⟩

/-- The AI loop of the clean stage counts every document exactly once
across the cached / aiProcessed / failed counters and preserves
totalDocuments. -/
theorem cleanAiStep_fold_stats (env : CleanEnv) (force : Bool)
    (docs : List CleanDoc) :
    ∀ (cache : CleanCacheState) (stats : CleanStats) (out : List CleanDoc),
    ((docs.foldl (cleanAiStep env force) (cache, stats, out)).2.1.cachedDocuments +
        (docs.foldl (cleanAiStep env force) (cache, stats, out)).2.1.aiProcessedDocuments +
        (docs.foldl (cleanAiStep env force) (cache, stats, out)).2.1.failedDocuments =
      stats.cachedDocuments + stats.aiProcessedDocuments +
        stats.failedDocuments + docs.length) ∧
    (docs.foldl (cleanAiStep env force) (cache, stats, out)).2.1.totalDocuments =
      stats.totalDocuments := by
  induction docs with
  | nil => intro cache stats out; simp
  | cons d ds ih =>
    intro cache stats out
    obtain ⟨cache2, stats2, out2, hstep, hsum, htot⟩ :=
      cleanAiStep_step env force cache stats out d
    obtain ⟨h1, h2⟩ := ih cache2 stats2 out2
    simp only [List.foldl_cons, hstep, List.length_cons]
    refine ⟨by omega, by omega⟩

/-- Two complementary filters split the length of a list. -/
theorem length_filter_partition {α : Type} (p q : α → Bool) (l : List α)
    (hq : ∀ x, q x = !(p x)) :
    (l.filter p).length + (l.filter q).length = l.length := by
  induction l with
  | nil => simp
  | cons x xs ih =>
    cases h : p x <;> simp [List.filter_cons, h, hq] <;> omega

/-- The splitting pass changes only splitDocuments. -/
theorem splitOneDocument_fold_stats (maxTokens : Nat) (docs : List CleanDoc) :
    ∀ (stats : CleanStats) (out : List CleanDoc),
    (docs.foldl (splitOneDocument maxTokens) (stats, out)).1 =
      { stats with splitDocuments := stats.splitDocuments +
          (docs.filter (fun d =>
            (splitContent d.content maxTokens).length > 1)).length } := by
  induction docs with
  | nil => intro stats out; simp
  | cons d ds ih =>
    intro stats out
    by_cases h : (splitContent d.content maxTokens).length > 1
    · simp only [List.foldl_cons, splitOneDocument, h, if_true]
      rw [ih]
      simp [List.filter_cons, h, Nat.add_assoc, Nat.add_comm 1]
    · simp only [List.foldl_cons, splitOneDocument, h, if_false]
      rw [ih]
      simp [List.filter_cons, h]

/-- C2 amended: for every stage execution the statistics satisfy
failed + cached + newlyProcessed = total + k, where k counts the
post-classification per-document failures that are tallied a second time
on failedDocuments: content fetch or extraction failures in Collection and
thrown index bulk batches in Indexing; k = 0 for Enrichment unconditionally.
The equality of the original claim therefore holds exactly when no such
post-classification failure occurs. -/
theorem stage_stats_conservation :
    (∀ (env : CloneEnv) (docs : List CloneDoc) (force : Bool),
      (cloneExecute env docs force).stats.failedDocuments +
          (cloneExecute env docs force).stats.cachedDocuments +
          ((cloneExecute env docs force).stats.newDocuments +
            (cloneExecute env docs force).stats.updatedDocuments) =
        (cloneExecute env docs force).stats.totalDocuments +
          ((processDocumentsIncremental env docs force
              { totalDocuments := docs.length }).2.filter
            (cloneFetchFails env)).length) ∧
    (∀ (env : CleanEnv) (cache : CleanCacheState) (docs : List CleanDoc)
        (force : Bool) (maxTokens : Nat) (st : CleanCacheState)
        (r : CleanResult),
      cleanExecute env cache docs force maxTokens = .ok (st, r) →
      r.stats.failedDocuments + r.stats.cachedDocuments +
          r.stats.aiProcessedDocuments = r.stats.totalDocuments) ∧
    (∀ (env : UploadEnv) (docs : List UploadDocIn) (force : Bool)
        (batchSize : Nat),
      (uploadExecute env docs force batchSize).stats.failedDocuments +
          (uploadExecute env docs force batchSize).stats.cachedEmbeddings +
          (uploadExecute env docs force batchSize).stats.embeddedDocuments =
        (uploadExecute env docs force batchSize).stats.totalDocuments +
          uploadIndexFailureCount env
            (generateEmbeddings env docs force
              { totalDocuments := docs.length }).2 batchSize) := by
  refine ⟨?_, ?_, ?_⟩
  · intro env docs force
    obtain ⟨h1, h2, h3⟩ := classifyDocument_fold_stats env force docs
      { totalDocuments := docs.length } []
    have h4 := fetchOneDocument_fold_stats env
      (processDocumentsIncremental env docs force { totalDocuments := docs.length }).2
      (processDocumentsIncremental env docs force { totalDocuments := docs.length }).1 []
    simp only [cloneExecute, cloneGetResults, fetchDocumentContents]
    rw [h4]
    simp only [processDocumentsIncremental] at h1 h2 h3 ⊢
    simp only [CloneStats.mk.injEq] at *
    simp at h1 h2 h3 ⊢
    omega
  · intro env cache docs force maxTokens st r h
    by_cases hd : docs = []
    · simp [cleanExecute, hd] at h
    · simp only [cleanExecute, if_neg hd, Except.ok.injEq, Prod.mk.injEq] at h
      obtain ⟨hst, hr⟩ := h
      subst hr
      obtain ⟨h1, h2⟩ := cleanAiStep_fold_stats env force docs cache
        { totalDocuments := docs.length } []
      have h3 := splitOneDocument_fold_stats maxTokens
        (processDocumentsWithAI env docs force cache
          { totalDocuments := docs.length }).2.2
        (processDocumentsWithAI env docs force cache
          { totalDocuments := docs.length }).2.1 []
      simp only [cleanGetResults, splitLargeDocuments]
      rw [h3]
      simp only [processDocumentsWithAI] at h1 h2 ⊢
      simp at h1 h2 ⊢
      omega
  · intro env docs force batchSize
    by_cases hd : docs = []
    · subst hd
      simp [uploadExecute, uploadGetResults, generateEmbeddings,
        uploadIndexFailureCount, chunkArray, chunkArrayAux, ite_self]
    · have hcache := embedCacheStep_fold env force docs
        { totalDocuments := docs.length } [] []
      have hgen := embedGenStep_fold_stats env
        (docs.foldl (embedCacheStep env force)
          ({ totalDocuments := docs.length }, [], [])).2.2
        (docs.foldl (embedCacheStep env force)
          ({ totalDocuments := docs.length }, [], [])).1
        (docs.foldl (embedCacheStep env force)
          ({ totalDocuments := docs.length }, [], [])).2.1
      have hidx := indexOneBatch_fold env
        (chunkArray (generateEmbeddings env docs force
          { totalDocuments := docs.length }).2 batchSize)
        (generateEmbeddings env docs force
          { totalDocuments := docs.length }).1
      have hpart := length_filter_partition
        (fun d => (cachedEmbeddingHit env force d).isSome)
        (fun d => (cachedEmbeddingHit env force d).isNone) docs
        (fun d => by cases cachedEmbeddingHit env force d <;> simp)
      have hpart2 := length_filter_partition
        (fun d => !embedFails env d) (embedFails env)
        (docs.filter (fun d => (cachedEmbeddingHit env force d).isNone))
        (fun d => by cases h : embedFails env d <;> simp [h])
      simp only [uploadExecute, if_neg hd, uploadGetResults,
        buildElasticsearchIndex, uploadIndexFailureCount]
      rw [hidx]
      simp only [generateEmbeddings] at *
      rw [hcache] at hgen ⊢
      rw [hgen]
      simp at hpart hpart2 ⊢
      omega

/-- Witness for C2: the Enrichment conjunct applied to a one-document run
served entirely from cache. -/
theorem stage_stats_conservation_witness :
    (cleanGetResults
        { totalDocuments := 1, aiProcessedDocuments := 0, cachedDocuments := 1,
          splitDocuments := 0, failedDocuments := 0 }
        [mergeAiResults { id := "w", title := "t", content := ['a'] }
          { ai_title := "T", summary := "s", keywords := [], category := "c" }
          true]).stats.failedDocuments +
        (cleanGetResults
          { totalDocuments := 1, aiProcessedDocuments := 0, cachedDocuments := 1,
            splitDocuments := 0, failedDocuments := 0 }
          [mergeAiResults { id := "w", title := "t", content := ['a'] }
            { ai_title := "T", summary := "s", keywords := [], category := "c" }
            true]).stats.cachedDocuments +
        (cleanGetResults
          { totalDocuments := 1, aiProcessedDocuments := 0, cachedDocuments := 1,
            splitDocuments := 0, failedDocuments := 0 }
          [mergeAiResults { id := "w", title := "t", content := ['a'] }
            { ai_title := "T", summary := "s", keywords := [], category := "c" }
            true]).stats.aiProcessedDocuments =
      (cleanGetResults
        { totalDocuments := 1, aiProcessedDocuments := 0, cachedDocuments := 1,
          splitDocuments := 0, failedDocuments := 0 }
        [mergeAiResults { id := "w", title := "t", content := ['a'] }
          { ai_title := "T", summary := "s", keywords := [], category := "c" }
          true]).stats.totalDocuments :=
  stage_stats_conservation.2.1
    { ai := fun _ _ => .error "unused", updateFails := fun _ => none }
    (fun _ => some { aiResults :=
      { ai_title := "T", summary := "s", keywords := [], category := "c" } })
    [{ id := "w", title := "t", content := ['a'] }] false 7000
    (fun _ => some { aiResults :=
      { ai_title := "T", summary := "s", keywords := [], category := "c" } })
    (cleanGetResults
      { totalDocuments := 1, aiProcessedDocuments := 0, cachedDocuments := 1,
        splitDocuments := 0, failedDocuments := 0 }
      [mergeAiResults { id := "w", title := "t", content := ['a'] }
        { ai_title := "T", summary := "s", keywords := [], category := "c" }
        true])
    rfl

/-- When every document has a cache entry, the AI loop with force=false
serves everything from cache: the store is unchanged, each document counts
as cached, and the outputs are the cache merges in order. -/
theorem cleanAiStep_fold_all_cached (env : CleanEnv) (docs : List CleanDoc) :
    ∀ (cache : CleanCacheState) (stats : CleanStats) (out : List CleanDoc),
    (∀ d ∈ docs, (cache d.id).isSome) →
    docs.foldl (cleanAiStep env false) (cache, stats, out) =
      (cache,
        { stats with cachedDocuments := stats.cachedDocuments + docs.length },
        out ++ docs.map (fun d =>
          match cache d.id with
          | some entry => mergeAiResults d entry.aiResults true
          | none => d)) := by
  induction docs with
  | nil => intro cache stats out _; simp
  | cons d ds ih =>
    intro cache stats out hall
    obtain ⟨entry, hentry⟩ := Option.isSome_iff_exists.mp (hall d (by simp))
    simp only [List.foldl_cons, cleanAiStep, hentry]
    rw [ih cache _ _ (fun x hx => hall x (by simp [hx]))]
    simp only [Prod.mk.injEq, List.map_cons, hentry, List.append_assoc,
      List.singleton_append, List.length_cons]
    refine ⟨trivial, ?_, trivial⟩
    simp <;> omega

/-- A clean stage execution on an all-cached document set resolves without
touching the store and reports every document as cached. -/
theorem cleanExecute_all_cached (env : CleanEnv) (cache : CleanCacheState)
    (docs : List CleanDoc) (maxTokens : Nat) (hne : docs ≠ [])
    (hall : ∀ d ∈ docs, (cache d.id).isSome) :
    ∃ r : CleanResult,
      cleanExecute env cache docs false maxTokens = .ok (cache, r) ∧
      r.stats.cachedDocuments = r.stats.totalDocuments ∧
      r.stats.aiProcessedDocuments = 0 := by
  have hfold := cleanAiStep_fold_all_cached env docs cache
    { totalDocuments := docs.length } [] hall
  have hsplit := splitOneDocument_fold_stats maxTokens
    (docs.map (fun d =>
      match cache d.id with
      | some entry => mergeAiResults d entry.aiResults true
      | none => d))
    { totalDocuments := docs.length,
      cachedDocuments := 0 + docs.length } []
  simp only [cleanExecute, if_neg hne, processDocumentsWithAI,
    splitLargeDocuments]
  rw [hfold]
  refine ⟨_, rfl, ?_, ?_⟩
  · simp only [List.nil_append]
    rw [hsplit]
    simp [cleanGetResults]
  · simp only [List.nil_append]
    rw [hsplit]
    simp [cleanGetResults]

/-- C3 amended: provided every document of the set already has a cache
entry (entries are created by the Indexing stage cache upsert, not by the
clean stage itself), running the clean stage twice with force=false
resolves both times, leaves the store unchanged and serves every document
from cache on the second run: cachedDocuments = totalDocuments and no
document is sent to the AI collaborator.  Without that precondition the
claim fails, because updateAIResults performs no upsert. -/
theorem clean_second_run_all_cached (env : CleanEnv) (cache : CleanCacheState)
    (docs : List CleanDoc) (maxTokens : Nat) (hne : docs ≠ [])
    (hall : ∀ d ∈ docs, (cache d.id).isSome) :
    ∃ (st1 : CleanCacheState) (r1 : CleanResult) (st2 : CleanCacheState)
      (r2 : CleanResult),
      cleanExecute env cache docs false maxTokens = .ok (st1, r1) ∧
      cleanExecute env st1 docs false maxTokens = .ok (st2, r2) ∧
      r2.stats.cachedDocuments = r2.stats.totalDocuments ∧
      r2.stats.aiProcessedDocuments = 0 := by
  obtain ⟨r1, h1, _, _⟩ := cleanExecute_all_cached env cache docs maxTokens hne hall
  obtain ⟨r2, h2, hc, ha⟩ := cleanExecute_all_cached env cache docs maxTokens hne hall
  exact ⟨cache, r1, cache, r2, h1, h2, hc, ha⟩

/-- Witness for C3 at a concrete all-cached one-document set. -/
theorem clean_second_run_all_cached_witness :
    ∃ (st1 : CleanCacheState) (r1 : CleanResult) (st2 : CleanCacheState)
      (r2 : CleanResult),
      cleanExecute
          { ai := fun _ _ => .error "unused", updateFails := fun _ => none }
          (fun _ => some { aiResults :=
            { ai_title := "T", summary := "s", keywords := [], category := "c" } })
          [{ id := "w", title := "t", content := ['a'] }] false 7000 =
        .ok (st1, r1) ∧
      cleanExecute
          { ai := fun _ _ => .error "unused", updateFails := fun _ => none }
          st1 [{ id := "w", title := "t", content := ['a'] }] false 7000 =
        .ok (st2, r2) ∧
      r2.stats.cachedDocuments = r2.stats.totalDocuments ∧
      r2.stats.aiProcessedDocuments = 0 :=
  clean_second_run_all_cached
    { ai := fun _ _ => .error "unused", updateFails := fun _ => none }
    (fun _ => some { aiResults :=
      { ai_title := "T", summary := "s", keywords := [], category := "c" } })
    [{ id := "w", title := "t", content := ['a'] }] 7000
    (by decide) (fun d _ => rfl)

/-- A kept document of the validation pass has non-empty trimmed content. -/
theorem validateOneDocument_kept (d c : CleanDoc)
    (h : validateOneDocument d = some c) : 0 < (jsTrim c.content).length := by
  unfold validateOneDocument at h
  by_cases hc : (jsTrim d.content).length = 0
  · simp [hc] at h
  · simp only [hc, if_neg, if_false] at h
    have : c.content = d.content := by
      cases h.symm
      rfl
    rw [this]
    omega

/-- Every document in the output of the validation pass has non-empty
trimmed content. -/
theorem validateAndClean_no_empty (docs : List CleanDoc) :
    ∀ (acc : List CleanDoc), (∀ c ∈ acc, 0 < (jsTrim c.content).length) →
    ∀ c ∈ docs.foldl validateStep acc, 0 < (jsTrim c.content).length := by
  induction docs with
  | nil => intro acc hacc c hc; exact hacc c hc
  | cons d ds ih =>
    intro acc hacc c hc
    simp only [List.foldl_cons] at hc
    rcases hv : validateOneDocument d with _ | kept
    · exact ih (validateStep acc d) (by simp [validateStep, hv]; exact hacc) c hc
    · refine ih (validateStep acc d) ?_ c hc
      intro x hx
      simp only [validateStep, hv, List.mem_append, List.mem_singleton] at hx
      rcases hx with hx | hx
      · exact hacc x hx
      · subst hx; exact validateOneDocument_kept d x hv

/-- C5 amended: the validation pass excludes every empty (or
whitespace-only) content document from the stage output, but counts no
failure for it: the statistics record returned by getResults is exactly
the one accumulated before the validation pass. -/
theorem clean_validation_drops_empty_uncounted (docs : List CleanDoc) :
    (∀ c ∈ validateAndCleanDocuments docs, 0 < (jsTrim c.content).length) ∧
    (∀ stats : CleanStats, (cleanGetResults stats docs).stats = stats) := by
  constructor
  · exact validateAndClean_no_empty docs [] (by intro c hc; simp at hc)
  · intro stats; rfl

/-- Witness for C5: the single kept document of a concrete validation run
has non-empty trimmed content, and getResults preserves a concrete
statistics record. -/
theorem clean_validation_drops_empty_uncounted_witness :
    (0 < (jsTrim ({ id := "w", title := "t", content := ['a'],
                    ai_title := some "t", keywords := some ([] : List String),
                    wordCount := some 1 } : CleanDoc).content).length) ∧
    (cleanGetResults { totalDocuments := 3 }
        [{ id := "w", title := "t", content := ['a'] }]).stats =
      { totalDocuments := 3 } :=
  ⟨(clean_validation_drops_empty_uncounted
      [{ id := "w", title := "t", content := ['a'] }]).1
      { id := "w", title := "t", content := ['a'], ai_title := some "t",
        keywords := some [], wordCount := some 1 }
      (by decide),
   (clean_validation_drops_empty_uncounted
      [{ id := "w", title := "t", content := ['a'] }]).2
      { totalDocuments := 3 }⟩

/-- The embedding outcome keeps the originating document. -/
theorem embedOutcome_doc (env : UploadEnv) (d : UploadDocIn) :
    (embedOutcome env d).doc = d := by
  unfold embedOutcome
  cases env.generateEmbedding d.content <;> rfl

/-- An embedding outcome carrying an error carries the 1536-wide zero
vector. -/
theorem embedOutcome_error_zero (env : UploadEnv) (d : UploadDocIn)
    (h : (embedOutcome env d).embeddingError.isSome = true) :
    (embedOutcome env d).embedding = List.replicate 1536 0 := by
  unfold embedOutcome at h ⊢
  cases henv : env.generateEmbedding d.content with
  | ok emb => rw [henv] at h; exact Bool.noConfusion h
  | error e => rfl

/-- Embedding outcomes carry an error exactly for the failing documents. -/
theorem embedOutcome_error_count (env : UploadEnv) (texts : List UploadDocIn) :
    ((texts.map (embedOutcome env)).filter
        (fun d => d.embeddingError.isSome)).length =
      (texts.filter (embedFails env)).length := by
  induction texts with
  | nil => rfl
  | cons d ds ih =>
    cases h : env.generateEmbedding d.content with
    | ok emb =>
      simp only [List.map_cons, List.filter_cons, embedOutcome, embedFails, h,
        Option.isSome_none, Option.isSome_some, Bool.false_eq_true, if_false,
        if_true, List.length_cons, ih]
    | error e =>
      simp only [List.map_cons, List.filter_cons, embedOutcome, embedFails, h,
        Option.isSome_none, Option.isSome_some, Bool.false_eq_true, if_false,
        if_true, List.length_cons, ih]

/-- Cache-hit documents never carry an embedding error. -/
theorem cacheHitDoc_no_error (env : UploadEnv) (force : Bool)
    (l : List UploadDocIn) :
    ((l.map (cacheHitDoc env force)).filter
      (fun d2 => d2.embeddingError.isSome)).length = 0 := by
  induction l with
  | nil => rfl
  | cons d ds ih => simpa [cacheHitDoc, List.filter_cons] using ih

/-- Closed form of generateEmbeddings: cache hits first (in order), then
the embedding outcomes of the misses; the statistics count hits, embedding
successes and embedding failures. -/
theorem generateEmbeddings_closed (env : UploadEnv) (force : Bool)
    (documents : List UploadDocIn) (stats0 : UploadStats) :
    generateEmbeddings env documents force stats0 =
      ({ stats0 with
          cachedEmbeddings := stats0.cachedEmbeddings +
            (documents.filter (fun d =>
              (cachedEmbeddingHit env force d).isSome)).length
          embeddedDocuments := stats0.embeddedDocuments +
            ((documents.filter (fun d =>
                (cachedEmbeddingHit env force d).isNone)).filter
              (fun d => !embedFails env d)).length
          failedDocuments := stats0.failedDocuments +
            ((documents.filter (fun d =>
                (cachedEmbeddingHit env force d).isNone)).filter
              (embedFails env)).length },
        (documents.filter (fun d =>
            (cachedEmbeddingHit env force d).isSome)).map
          (cacheHitDoc env force) ++
        (documents.filter (fun d =>
            (cachedEmbeddingHit env force d).isNone)).map
          (embedOutcome env)) := by
  simp only [generateEmbeddings]
  rw [embedCacheStep_fold]
  rw [Prod.ext_iff]
  constructor
  · rw [embedGenStep_fold_stats]
    simp
  · rw [embedGenStep_fold_out]
    simp

/-- C6: for every upload stage run, an input document whose embedding
request fails is not dropped: it appears in the embedded document list
with the fixed-width zero-vector placeholder (length esEmbeddingDims, the
width configured in the index mapping) and the error recorded on it; the
failures of the embedding phase are counted in failedDocuments, one per
error-carrying document; every input document is correlated to an output
document; and on a non-empty input embeddingGenerationRate equals the
count of successfully embedded documents divided by the total. -/
theorem upload_embedding_failure_degradation (env : UploadEnv)
    (documents : List UploadDocIn) (forceReindex : Bool) (batchSize : Nat) :
    (∀ d2 ∈ (generateEmbeddings env documents forceReindex
        { totalDocuments := documents.length }).2,
      d2.embeddingError.isSome = true →
        d2.embedding = List.replicate esEmbeddingDims 0 ∧
        d2.embedding.length = esEmbeddingDims) ∧
    ((generateEmbeddings env documents forceReindex
        { totalDocuments := documents.length }).1.failedDocuments =
      ((generateEmbeddings env documents forceReindex
          { totalDocuments := documents.length }).2.filter
        (fun d2 => d2.embeddingError.isSome)).length) ∧
    (∀ d ∈ documents, ∃ d2 ∈ (generateEmbeddings env documents forceReindex
        { totalDocuments := documents.length }).2, d2.doc = d) ∧
    (documents ≠ [] →
      (uploadExecute env documents forceReindex batchSize).embeddingGenerationRate =
        ((uploadExecute env documents forceReindex batchSize).stats.embeddedDocuments : ℚ) /
          ((uploadExecute env documents forceReindex
            batchSize).stats.totalDocuments : ℚ) ∧
      (uploadExecute env documents forceReindex batchSize).stats.totalDocuments =
        documents.length) := by
  have hclosed := generateEmbeddings_closed env forceReindex documents
    { totalDocuments := documents.length }
  refine ⟨?_, ?_, ?_, ?_⟩
  · intro d2 hd2 herr
    rw [hclosed] at hd2
    rcases List.mem_append.mp hd2 with hmem | hmem
    · obtain ⟨d, _, hd⟩ := List.mem_map.mp hmem
      subst hd
      simp [cacheHitDoc] at herr
    · obtain ⟨d, _, hd⟩ := List.mem_map.mp hmem
      subst hd
      exact ⟨embedOutcome_error_zero env d herr, by
        rw [embedOutcome_error_zero env d herr]
        simp only [List.length_replicate, esEmbeddingDims]⟩
  · rw [hclosed]
    simp only [List.filter_append, List.length_append,
      embedOutcome_error_count]
    have h0 := cacheHitDoc_no_error env forceReindex
      (documents.filter (fun d => (cachedEmbeddingHit env forceReindex d).isSome))
    omega
  · intro d hd
    rw [hclosed]
    rcases hh : cachedEmbeddingHit env forceReindex d with _ | v
    · refine ⟨embedOutcome env d, ?_, embedOutcome_doc env d⟩
      exact List.mem_append.mpr (.inr (List.mem_map.mpr
        ⟨d, List.mem_filter.mpr ⟨hd, by simp [hh]⟩, rfl⟩))
    · refine ⟨cacheHitDoc env forceReindex d, ?_, rfl⟩
      exact List.mem_append.mpr (.inl (List.mem_map.mpr
        ⟨d, List.mem_filter.mpr ⟨hd, by simp [hh]⟩, rfl⟩))
  · intro hne
    have hidx := indexOneBatch_fold env
      (chunkArray (generateEmbeddings env documents forceReindex
        { totalDocuments := documents.length }).2 batchSize)
      (generateEmbeddings env documents forceReindex
        { totalDocuments := documents.length }).1
    simp only [uploadExecute, if_neg hne, uploadGetResults,
      buildElasticsearchIndex]
    rw [hidx]
    rw [hclosed]
    have hlen : 0 < documents.length := List.length_pos.mpr hne
    constructor
    · simp [hlen]
    · simp

/-- Witness for C6: the 5-document scenario with 2 embedding failures —
the rate equation of the theorem at that run, and concretely 3 of 5
embedded, total 5, and the 2 failures counted. -/
theorem upload_embedding_failure_degradation_witness :
    (uploadExecute c6env c6docs false 10).embeddingGenerationRate =
      ((uploadExecute c6env c6docs false 10).stats.embeddedDocuments : ℚ) /
        ((uploadExecute c6env c6docs false 10).stats.totalDocuments : ℚ) ∧
    (uploadExecute c6env c6docs false 10).stats.embeddedDocuments = 3 ∧
    (uploadExecute c6env c6docs false 10).stats.totalDocuments = 5 ∧
    (uploadExecute c6env c6docs false 10).stats.failedDocuments = 2 :=
  ⟨((upload_embedding_failure_degradation c6env c6docs false 10).2.2.2
      (by decide)).1, by decide, by decide, by decide⟩

/-- The serialization of a JSON string never equals the serialization of a
JSON object: the first character differs. -/
theorem jsonStringify_jstr_ne_jobj (s : String)
    (fields : List (String × JsValue)) :
    jsonStringify (.jstr s) ≠ jsonStringify (.jobj fields) := by
  intro h
  simp only [jsonStringify, List.cons.injEq] at h
  exact absurd h.1 (by decide)

/-- C9: the cache write fingerprints the whole document object while the
cached-check fingerprints its content argument: after cacheDocument stores
document d, isDocumentCached(d.id, x) is true iff the canonical
serialization of x equals that of the full document object — in
particular, checking with any string (such as the document content alone)
always reports not-cached, since a string never serializes like the
document object. -/
theorem isDocumentCached_whole_document (md5 : List Char → String)
    (hinj : Function.Injective md5) (store : MCacheStore)
    (document : SrcDocument) (processedContent aiResults : JsValue)
    (now : Int) (x : JsValue) :
    (isDocumentCached md5
        (cacheDocument md5 store document processedContent aiResults now)
        document.id x = true ↔
      jsonStringify x = jsonStringify document.json) ∧
    (∀ s : String,
      isDocumentCached md5
        (cacheDocument md5 store document processedContent aiResults now)
        document.id (.jstr s) = false) := by
  have hstep : ∀ y : JsValue,
      isDocumentCached md5
          (cacheDocument md5 store document processedContent aiResults now)
          document.id y = true ↔
        jsonStringify y = jsonStringify document.json := by
    intro y
    simp only [isDocumentCached, cacheDocument, if_pos, calculateHash,
      decide_eq_true_eq]
    rw [hinj.eq_iff]
    exact eq_comm
  refine ⟨hstep x, fun s => ?_⟩
  cases hb : isDocumentCached md5
      (cacheDocument md5 store document processedContent aiResults now)
      document.id (.jstr s)
  · rfl
  · exact absurd ((hstep (.jstr s)).mp hb)
      (by simp only [SrcDocument.json]; exact jsonStringify_jstr_ne_jobj s _)

/-- Witness for C9: with the identity digest and a concrete document,
checking with the whole object reports cached and checking with the bare
content string reports not-cached. -/
theorem isDocumentCached_whole_document_witness :
    isDocumentCached String.mk
        (cacheDocument String.mk (fun _ => none) c9doc .jnull (.jobj []) 0)
        "d9" c9doc.json = true ∧
    isDocumentCached String.mk
        (cacheDocument String.mk (fun _ => none) c9doc .jnull (.jobj []) 0)
        "d9" (.jstr "body") = false :=
  ⟨(isDocumentCached_whole_document String.mk (fun _ _ h => by injection h)
      (fun _ => none) c9doc .jnull (.jobj []) 0 c9doc.json).1.mpr rfl,
    (isDocumentCached_whole_document String.mk (fun _ _ h => by injection h)
      (fun _ => none) c9doc .jnull (.jobj []) 0 .jnull).2 "body"⟩

/-- The head of an append with a nonempty left part. -/
theorem head?_append_left {α : Type} (a b : List α) (h : a ≠ []) :
    (a ++ b).head? = a.head? := by
  cases a with
  | nil => exact absurd rfl h
  | cons x xs => rfl

/-- dropWhile is the identity when the head does not satisfy the
predicate. -/
theorem dropWhile_eq_self_of_head (p : Char → Bool) (l : List Char)
    (h : ∀ c, l.head? = some c → p c = false) : l.dropWhile p = l := by
  cases l with
  | nil => rfl
  | cons x xs =>
    rw [List.dropWhile_cons, h x rfl]
    simp

/-- The first character of a trimmed text is not whitespace. -/
theorem jsTrim_head_not_ws (l : List Char) (c : Char)
    (h : (jsTrim l).head? = some c) : c.isWhitespace = false := by
  unfold jsTrim at h
  have hdec := List.takeWhile_append_dropWhile (l := (l.dropWhile Char.isWhitespace).reverse)
    (p := Char.isWhitespace)
  have ht2 : l.dropWhile Char.isWhitespace =
      ((l.dropWhile Char.isWhitespace).reverse.dropWhile Char.isWhitespace).reverse ++
        ((l.dropWhile Char.isWhitespace).reverse.takeWhile Char.isWhitespace).reverse := by
    conv_lhs => rw [← List.reverse_reverse (l.dropWhile Char.isWhitespace),
      ← hdec, List.reverse_append]
  have hne : ((l.dropWhile Char.isWhitespace).reverse.dropWhile
      Char.isWhitespace).reverse ≠ [] := by
    intro h0
    rw [h0] at h
    simp at h
  have hh : (l.dropWhile Char.isWhitespace).head? = some c := by
    rw [ht2, head?_append_left _ _ hne]
    exact h
  have hw := List.head?_dropWhile_not Char.isWhitespace l
  rw [hh] at hw
  exact hw

/-- The last character of a trimmed text is not whitespace. -/
theorem jsTrim_getLast_not_ws (l : List Char) (c : Char)
    (h : (jsTrim l).getLast? = some c) : c.isWhitespace = false := by
  unfold jsTrim at h
  rw [List.getLast?_reverse] at h
  have hw := List.head?_dropWhile_not Char.isWhitespace
    (l.dropWhile Char.isWhitespace).reverse
  rw [h] at hw
  exact hw

/-- Trim is the identity on a text with no edge whitespace. -/
theorem jsTrim_eq_self (l : List Char) (h : noEdgeWhitespace l) :
    jsTrim l = l := by
  unfold jsTrim
  rw [dropWhile_eq_self_of_head _ l h.1]
  rw [dropWhile_eq_self_of_head _ l.reverse ?_]
  · exact List.reverse_reverse l
  · intro c hc
    rw [List.head?_reverse] at hc
    exact h.2 c hc

/-- Concatenation preserves the no-edge-whitespace shape when the right
part is nonempty. -/
theorem noEdge_append (a b : List Char) (ha : noEdgeWhitespace a)
    (hb : noEdgeWhitespace b) (hbne : b ≠ []) :
    noEdgeWhitespace (a ++ b) := by
  constructor
  · intro c hc
    cases a with
    | nil => exact hb.1 c (by simpa using hc)
    | cons x xs =>
      rw [head?_append_left _ _ (by simp)] at hc
      exact ha.1 c hc
  · intro c hc
    rw [← List.head?_reverse, List.reverse_append,
      head?_append_left _ _ (by simpa using hbne),
      List.head?_reverse] at hc
    exact hb.2 c hc

/-- Every sentence produced by splitIntoSentences is nonempty and has no
edge whitespace. -/
theorem splitIntoSentences_shape (text : List Char) :
    ∀ s ∈ splitIntoSentences text, noEdgeWhitespace s ∧ s ≠ [] := by
  intro s hs
  simp only [splitIntoSentences, List.mem_map, List.mem_filter] at hs
  obtain ⟨u, ⟨_, hu⟩, rfl⟩ := hs
  have hlen : 0 < (jsTrim u).length := by simpa using hu
  have hne : jsTrim u ≠ [] := by
    intro h0
    rw [h0] at hlen
    simp at hlen
  refine ⟨⟨?_, ?_⟩, by simp⟩
  · intro c hc
    rw [head?_append_left _ _ hne] at hc
    exact jsTrim_head_not_ws u c hc
  · intro c hc
    rw [List.getLast?_concat] at hc
    cases hc
    decide

/-- Invariant of the greedy chunk accumulation loop: every emitted chunk
is a nonempty edge-trimmed text that either fits the threshold or is a
single sentence, the running chunk satisfies the same property or is
empty, and the flattening of the state reproduces the flattening of the
processed sentences. -/
theorem splitChunksStep_fold_inv (maxTokens : Nat) (S : List (List Char))
    (hS : ∀ s ∈ S, noEdgeWhitespace s ∧ s ≠ []) :
    ∀ (ss : List (List Char)), (∀ s ∈ ss, s ∈ S) →
    ∀ (chunks : List (List Char)) (cur : List Char),
    (∀ ch ∈ chunks, (noEdgeWhitespace ch ∧ ch ≠ []) ∧
      (estimateTokens ch ≤ maxTokens ∨ ch ∈ S)) →
    (cur = [] ∨ ((noEdgeWhitespace cur ∧ cur ≠ []) ∧
      (estimateTokens cur ≤ maxTokens ∨ cur ∈ S))) →
    (∀ ch ∈ (ss.foldl (splitChunksStep maxTokens) (chunks, cur)).1,
      (noEdgeWhitespace ch ∧ ch ≠ []) ∧
      (estimateTokens ch ≤ maxTokens ∨ ch ∈ S)) ∧
    ((ss.foldl (splitChunksStep maxTokens) (chunks, cur)).2 = [] ∨
      ((noEdgeWhitespace (ss.foldl (splitChunksStep maxTokens) (chunks, cur)).2 ∧
        (ss.foldl (splitChunksStep maxTokens) (chunks, cur)).2 ≠ []) ∧
       (estimateTokens (ss.foldl (splitChunksStep maxTokens) (chunks, cur)).2 ≤
          maxTokens ∨
        (ss.foldl (splitChunksStep maxTokens) (chunks, cur)).2 ∈ S))) ∧
    (ss.foldl (splitChunksStep maxTokens) (chunks, cur)).1.flatten ++
        (ss.foldl (splitChunksStep maxTokens) (chunks, cur)).2 =
      chunks.flatten ++ cur ++ ss.flatten := by
  intro ss
  induction ss with
  | nil =>
    intro _ chunks cur hchunks hcur
    exact ⟨hchunks, hcur, by simp⟩
  | cons s rest ih =>
    intro hmem chunks cur hchunks hcur
    have hsS : s ∈ S := hmem s (by simp)
    obtain ⟨hsedge, hsne⟩ := hS s hsS
    simp only [List.foldl_cons]
    by_cases hcond : estimateTokens (cur ++ s) > maxTokens ∧ cur.length > 0
    · have hcurne : cur ≠ [] := by
        intro h0
        rw [h0] at hcond
        simp at hcond
      rcases hcur with h0 | ⟨⟨hce, hcne⟩, hcbound⟩
      · exact absurd h0 hcurne
      have hstep : splitChunksStep maxTokens (chunks, cur) s =
          (chunks ++ [jsTrim cur], s) := by
        simp only [splitChunksStep]
        rw [if_pos]
        simpa using hcond
      rw [hstep, jsTrim_eq_self cur hce]
      obtain ⟨r1, r2, r3⟩ := ih (fun x hx => hmem x (by simp [hx]))
        (chunks ++ [cur]) s
        (fun ch hch => by
          rcases List.mem_append.mp hch with h | h
          · exact hchunks ch h
          · rw [List.mem_singleton.mp h]
            exact ⟨⟨hce, hcne⟩, hcbound⟩)
        (.inr ⟨⟨hsedge, hsne⟩, .inr hsS⟩)
      refine ⟨r1, r2, ?_⟩
      rw [r3]
      simp
    · have hstep : splitChunksStep maxTokens (chunks, cur) s =
          (chunks, cur ++ s) := by
        simp only [splitChunksStep]
        rw [if_neg]
        simpa using hcond
      rw [hstep]
      have hcurs : noEdgeWhitespace (cur ++ s) ∧ cur ++ s ≠ [] := by
        rcases hcur with h0 | ⟨⟨hce, _⟩, _⟩
        · rw [h0]; exact ⟨by simpa using hsedge, by simpa using hsne⟩
        · exact ⟨noEdge_append cur s hce hsedge hsne, by simp [hsne]⟩
      have hbound : estimateTokens (cur ++ s) ≤ maxTokens ∨ cur ++ s ∈ S := by
        by_cases hle : estimateTokens (cur ++ s) ≤ maxTokens
        · exact .inl hle
        · have hcur0 : cur.length = 0 := by
            by_contra hne0
            exact hcond ⟨by omega, by omega⟩
          have : cur = [] := List.length_eq_zero.mp hcur0
          rw [this]
          simpa using .inr hsS
      obtain ⟨r1, r2, r3⟩ := ih (fun x hx => hmem x (by simp [hx]))
        chunks (cur ++ s) hchunks (.inr ⟨hcurs, hbound⟩)
      refine ⟨r1, r2, ?_⟩
      rw [r3]
      simp

/-- C4 amended: for a document whose content estimate exceeds the
threshold, splitContent returns ordered chunks whose concatenation equals
the concatenation of the normalized sentences of the content (delimiters
。！？ and newlines rewritten to 。, whitespace-only segments dropped,
segment edges trimmed) — not in general the original content; every chunk
either fits the threshold or is a single (possibly oversized) sentence;
and the splitting pass replaces the document by the indexed chunk
documents exactly when at least two chunks result, keeping it unchanged
otherwise. -/
theorem splitContent_over_threshold (content : List Char) (maxTokens : Nat)
    (hover : estimateTokens content > maxTokens) :
    ((splitContent content maxTokens).flatten =
      (splitIntoSentences content).flatten) ∧
    (∀ ch ∈ splitContent content maxTokens,
      estimateTokens ch ≤ maxTokens ∨ ch ∈ splitIntoSentences content) ∧
    (∀ (stats : CleanStats) (out : List CleanDoc) (document : CleanDoc),
      document.content = content →
      (splitOneDocument maxTokens (stats, out) document).2 =
        out ++ (if (splitContent content maxTokens).length > 1 then
          makeChunkDocs document (splitContent content maxTokens)
          else [document])) := by
  have hinv := splitChunksStep_fold_inv maxTokens (splitIntoSentences content)
    (splitIntoSentences_shape content) (splitIntoSentences content)
    (fun x hx => hx) [] [] (by intro ch hch; simp at hch) (.inl rfl)
  obtain ⟨h1, h2, h3⟩ := hinv
  have hsplit : splitContent content maxTokens =
      (if ((splitIntoSentences content).foldl (splitChunksStep maxTokens)
          ([], [])).2.length > 0 then
        ((splitIntoSentences content).foldl (splitChunksStep maxTokens)
          ([], [])).1 ++
          [jsTrim ((splitIntoSentences content).foldl (splitChunksStep maxTokens)
            ([], [])).2]
       else ((splitIntoSentences content).foldl (splitChunksStep maxTokens)
          ([], [])).1) := by
    simp only [splitContent, if_neg (by omega : ¬ estimateTokens content ≤ maxTokens)]
  refine ⟨?_, ?_, ?_⟩
  · rw [hsplit]
    by_cases hc : ((splitIntoSentences content).foldl (splitChunksStep maxTokens)
        ([], [])).2.length > 0
    · rcases h2 with h0 | ⟨⟨hce, _⟩, _⟩
      · rw [h0] at hc
        simp at hc
      · rw [if_pos hc, jsTrim_eq_self _ hce]
        have := h3
        simp only [List.flatten_nil, List.nil_append] at this
        rw [← this]
        simp
    · rcases h2 with h0 | ⟨⟨_, hcne⟩, _⟩
      · rw [if_neg hc]
        have := h3
        simp only [List.flatten_nil, List.nil_append] at this
        rw [← this, h0]
        simp
      · exact absurd (List.length_pos.mpr hcne) hc
  · intro ch hch
    rw [hsplit] at hch
    by_cases hc : ((splitIntoSentences content).foldl (splitChunksStep maxTokens)
        ([], [])).2.length > 0
    · rw [if_pos hc] at hch
      rcases List.mem_append.mp hch with h | h
      · exact (h1 ch h).2
      · rcases h2 with h0 | ⟨⟨hce, _⟩, hbound⟩
        · rw [h0] at hc
          simp at hc
        · rw [List.mem_singleton.mp h, jsTrim_eq_self _ hce]
          exact hbound
    · rw [if_neg hc] at hch
      exact (h1 ch hch).2
  · intro stats out document hdoc
    simp only [splitOneDocument, hdoc]
    by_cases hlen : (splitContent content maxTokens).length > 1
    · rw [if_pos hlen, if_pos hlen]
    · rw [if_neg hlen, if_neg hlen]

/-- Witness for C4 at the concrete content ab。cd with threshold 3: the
content is over threshold and the chunk concatenation reproduces the
normalized sentence concatenation. -/
theorem splitContent_over_threshold_witness :
    (splitContent ['a', 'b', '。', 'c', 'd'] 3).flatten =
      (splitIntoSentences ['a', 'b', '。', 'c', 'd']).flatten :=
  (splitContent_over_threshold ['a', 'b', '。', 'c', 'd'] 3 (by decide)).1

end RagPipeline
